import Mathlib

/-!
# RobustQuadrature: a shallow embedding of `src/RobustQuadrature.h`

The header keeps one set of global variables per pin pair and a family of
interrupt service routines that update them.  The globals become the record
`State`; every routine becomes a function on `State` whose extra arguments are
the values the routine reads from the hardware: the level returned by
`digitalRead` and the timestamp returned by `micros()`.

Machine arithmetic:
* `int32_t` is an `Int` reduced by `wrap32` after every addition (`counter += x`
  at the ends of the range is taken to wrap around);
* `signed char` is an `Int` reduced by `wrap8` after every negation;
* `unsigned long` is a `Nat`, its subtraction is taken modulo `2 ^ w`, where
  `w` is the bit width of `unsigned long` on the target.

A call through the function pointer `callback` is recorded in the trace
`State.calls` (which function, with which argument).
-/

namespace RobustQuadrature

/-! ## Machine integers -/

/-- Reduction of an integer to the range of `int32_t` (two's complement). -/
def wrap32 (x : Int) : Int := (x + 2147483648) % 4294967296 - 2147483648

/-- Reduction of an integer to the range of `signed char` (two's complement). -/
def wrap8 (x : Int) : Int := (x + 128) % 256 - 128

/-- The values an `int32_t` can hold. -/
def InInt32 (x : Int) : Prop := -2147483648 ≤ x ∧ x ≤ 2147483647

instance (x : Int) : Decidable (InInt32 x) :=
  inferInstanceAs (Decidable (-2147483648 ≤ x ∧ x ≤ 2147483647))

/-- Subtraction `a - b` of two `unsigned long` values of `w` bits. -/
def usub (w a b : Nat) : Nat := (a + (2 ^ w - b % 2 ^ w)) % 2 ^ w

/-- The expression `digitalRead(pin) ? 1 : -1`. -/
def side (level : Bool) : Int := if level then 1 else -1

/-! ## The global variables of one pin pair -/

/-- The template variables of `RobustQuadrature.h` for one `<pina, pinb>`,
together with the trace of the calls made through `callback`. -/
structure State where
  /-- `volatile int32_t counter` -/
  counter : Int
  /-- `signed char stateA` -/
  stateA : Int
  /-- `signed char stateB` -/
  stateB : Int
  /-- `void (*callback)(int32_t)`; `none` is the null pointer. -/
  callback : Option Nat
  /-- `signed char putativestateA` -/
  putativestateA : Int
  /-- `signed char putativestateB` -/
  putativestateB : Int
  /-- `unsigned long lastA` -/
  lastA : Nat
  /-- `unsigned long lastB` -/
  lastB : Nat
  /-- `unsigned long holdoff` -/
  holdoff : Nat
  /-- Calls made through `callback` so far: the function and its argument. -/
  calls : List (Nat × Int)
  deriving DecidableEq, Repr

/-- Static storage before any constructor ran: everything is zero. -/
def zeroInit : State :=
  { counter := 0, stateA := 0, stateB := 0, callback := none,
    putativestateA := 0, putativestateB := 0, lastA := 0, lastB := 0,
    holdoff := 0, calls := [] }

/-- The statement `if (callback) callback(counter);`. -/
def notify (s : State) : State :=
  match s.callback with
  | some f => { s with calls := s.calls ++ [(f, s.counter)] }
  | none => s

/-! ## Interrupt service routines -/

/-- `isrA1`: channel A, one step per cycle. -/
def isrA1 (s : State) (levelB : Bool) : State :=
  let s := { s with stateB := side levelB }
  let s := if s.stateA > 0 then
      notify { s with counter := wrap32 (s.counter + s.stateB) }
    else s
  { s with stateA := 0 }

/-- `isrB1`: channel B, one and two steps per cycle. -/
def isrB1 (s : State) (levelA : Bool) : State :=
  let s := { s with stateA := side levelA }
  { s with stateB := 0 }

/-- The recovery statement shared by `isrA1x` and `isrA2`:
`if (stateA == 0) if (holdoff && t - lastA >= holdoff) stateA = putativestateA;` -/
def recoverA (w : Nat) (s : State) (t : Nat) : State :=
  if s.stateA = 0 then
    if s.holdoff ≠ 0 ∧ usub w t s.lastA ≥ s.holdoff then
      { s with stateA := s.putativestateA }
    else s
  else s

/-- The recovery statement of `isrB4`:
`if (stateB == 0) if (holdoff && t - lastB >= holdoff) stateB = putativestateB;` -/
def recoverB (w : Nat) (s : State) (t : Nat) : State :=
  if s.stateB = 0 then
    if s.holdoff ≠ 0 ∧ usub w t s.lastB ≥ s.holdoff then
      { s with stateB := s.putativestateB }
    else s
  else s

/-- `isrA1x`: channel A, one step per cycle, with holdoff; `t` is the value
returned by `micros()`. -/
def isrA1x (w : Nat) (s : State) (levelB : Bool) (t : Nat) : State :=
  let s := { s with stateB := side levelB }
  let s := recoverA w s t
  let s := if s.stateA ≠ 0 then
      let s := if s.stateA > 0 then
          notify { s with counter := wrap32 (s.counter + s.stateB) }
        else s
      let s := { s with putativestateA := wrap8 (-s.stateA) }
      { s with stateA := 0 }
    else s
  { s with lastA := t }

/-- `isrA2`: channel A, two and four steps per cycle. -/
def isrA2 (w : Nat) (s : State) (levelB : Bool) (t : Nat) : State :=
  let s := { s with stateB := side levelB }
  let s := recoverA w s t
  let s := if s.stateA ≠ 0 then
      let step := if s.stateA > 0 then s.stateB else -s.stateB
      let s := notify { s with counter := wrap32 (s.counter + step) }
      let s := { s with putativestateA := wrap8 (-s.stateA) }
      { s with stateA := 0 }
    else s
  { s with lastA := t }

/-- `isrB4`: channel B, four steps per cycle. -/
def isrB4 (w : Nat) (s : State) (levelA : Bool) (t : Nat) : State :=
  let s := { s with stateA := side levelA }
  let s := recoverB w s t
  let s := if s.stateB ≠ 0 then
      let step := if s.stateB > 0 then -s.stateA else s.stateA
      let s := notify { s with counter := wrap32 (s.counter + step) }
      let s := { s with putativestateB := wrap8 (-s.stateB) }
      { s with stateB := 0 }
    else s
  { s with lastB := t }

/-! ## The classes -/

/-- The routine attached to the interrupt of pin A. -/
inductive HandlerA where
  | isrA1 | isrA1x | isrA2
  deriving DecidableEq, Repr

/-- The routine attached to the interrupt of pin B. -/
inductive HandlerB where
  | isrB1 | isrB4
  deriving DecidableEq, Repr

/-- What `attachInterrupt` has bound to the two pins. -/
structure Wiring where
  onA : HandlerA
  onB : HandlerB
  deriving DecidableEq, Repr

/-- `Base::Base()`; `levelA` and `levelB` are what `digitalRead(pina)` and
`digitalRead(pinb)` return.  The constructor writes `stateA` twice. -/
def Base.ctor (g : State) (levelA levelB : Bool) : State :=
  let g := { g with callback := none }
  let g := { g with counter := 0 }
  let g := { g with holdoff := 0 }
  let g := { g with stateA := side levelA }
  { g with stateA := side levelB }

/-- `Base::setHoldoff`. -/
def Base.setHoldoff (s : State) (holdoff_us : Nat) : State :=
  { s with holdoff := holdoff_us }

/-- `Base::setCallback`. -/
def Base.setCallback (s : State) (cb : Option Nat) : State :=
  { s with callback := cb }

/-- `Base::position() const`.  `narrow` says that `SIG_ATOMIC_MAX < INT32_MAX`
on the target; `irq` is the interrupt-enable flag, which `noInterrupts()`
clears and `interrupts()` sets.  The result is the returned value, the
globals and the flag after the call. -/
def Base.position (narrow : Bool) (s : State) (irq : Bool) : Int × State × Bool :=
  if narrow then
    let _irq := false
    let x := s.counter
    let irq := true
    (x, s, irq)
  else
    (s.counter, s, irq)

/-- `One::One()`. -/
def One.ctor (g : State) (levelA levelB : Bool) : State × Wiring :=
  (Base.ctor g levelA levelB, { onA := .isrA1, onB := .isrB1 })

/-- `One::setHoldoff`, which also replaces the routine of pin A. -/
def One.setHoldoff (d : State × Wiring) (holdoff_us : Nat) : State × Wiring :=
  ({ d.1 with holdoff := holdoff_us }, { d.2 with onA := .isrA1x })

/-- `Two::Two()`. -/
def Two.ctor (g : State) (levelA levelB : Bool) : State × Wiring :=
  ({ Base.ctor g levelA levelB with holdoff := 1000 }, { onA := .isrA2, onB := .isrB1 })

/-- `Four::Four()`. -/
def Four.ctor (g : State) (levelA levelB : Bool) : State × Wiring :=
  ({ Base.ctor g levelA levelB with holdoff := 1000 }, { onA := .isrA2, onB := .isrB4 })

/-! ## Edges and runs -/

/-- A logic transition on one pin, with what the routine will read: the level
of the other pin and the value of `micros()`. -/
inductive Edge where
  | A (levelB : Bool) (t : Nat)
  | B (levelA : Bool) (t : Nat)
  deriving DecidableEq, Repr

/-- The routine bound to the pin of the edge runs. -/
def handle (w : Nat) (m : Wiring) (s : State) : Edge → State
  | .A levelB t =>
    match m.onA with
    | .isrA1 => isrA1 s levelB
    | .isrA1x => isrA1x w s levelB t
    | .isrA2 => isrA2 w s levelB t
  | .B levelA t =>
    match m.onB with
    | .isrB1 => isrB1 s levelA
    | .isrB4 => isrB4 w s levelA t

/-- The routines run one after the other, in the order of the edges. -/
def run (w : Nat) (m : Wiring) (s : State) (es : List Edge) : State :=
  es.foldl (handle w m) s

/-- How many routine invocations of a run change `counter`. -/
def counterChanges (w : Nat) (m : Wiring) : State → List Edge → Nat
  | _, [] => 0
  | s, e :: es =>
    (if (handle w m s e).counter ≠ s.counter then 1 else 0)
      + counterChanges w m (handle w m s e) es

/-- Wiring of class `One` as constructed. -/
def standard : Wiring := { onA := .isrA1, onB := .isrB1 }

/-- Wiring of class `Two`. -/
def double : Wiring := { onA := .isrA2, onB := .isrB1 }

/-- Wiring of class `Four`. -/
def quadruple : Wiring := { onA := .isrA2, onB := .isrB4 }

/-- The `k`-th forward cycle: A-edge (B low), B-edge (A high), A-edge (B high),
B-edge (A low); `ts i` is the timestamp of the `i`-th edge of the run. -/
def forwardCycle (ts : Nat → Nat) (k : Nat) : List Edge :=
  [.A false (ts (4 * k)), .B true (ts (4 * k + 1)),
   .A true (ts (4 * k + 2)), .B false (ts (4 * k + 3))]

/-- The `k`-th reverse cycle: A-edge (B high), B-edge (A high), A-edge (B low),
B-edge (A low). -/
def reverseCycle (ts : Nat → Nat) (k : Nat) : List Edge :=
  [.A true (ts (4 * k)), .B true (ts (4 * k + 1)),
   .A false (ts (4 * k + 2)), .B false (ts (4 * k + 3))]

/-- One routine invocation moved `counter` by 0, by +1 or by -1, as `int32_t`. -/
def AtMostOneStep (old new : Int) : Prop :=
  new = old ∨ new = wrap32 (old + 1) ∨ new = wrap32 (old - 1)

/-- The listener calls one routine invocation is to make: one call of the
installed function with the new counter if `counter` changed, none otherwise. -/
def dispatched (cb : Option Nat) (old new : Int) : List (Nat × Int) :=
  if new ≠ old then
    match cb with
    | some f => [(f, new)]
    | none => []
  else []

/-- The values returned by `n` consecutive calls of `position()`. -/
def positionCalls (narrow : Bool) : Nat → State → Bool → List Int
  | 0, _, _ => []
  | n + 1, s, irq =>
    (Base.position narrow s irq).1
      :: positionCalls narrow n (Base.position narrow s irq).2.1 (Base.position narrow s irq).2.2

/-- The first `n` cycles of a rotation, one after the other. -/
def cycles (c : Nat → List Edge) : Nat → List Edge
  | 0 => []
  | n + 1 => cycles c n ++ c n

/-- The edges of the double-resolution scenario: B-edge with A high, A-edge with
B high, B-edge with A low, A-edge with B low. -/
def scenarioEdges (t1 t2 t3 t4 : Nat) : List Edge :=
  [.B true t1, .A true t2, .B false t3, .A false t4]

/-- One invocation either leaves `counter` and the trace alone, or moves
`counter` by `d = ±1` and then calls the installed function, if any. -/
def StepOrSkip (s r : State) : Prop :=
  (r.counter = s.counter ∧ r.calls = s.calls)
    ∨ ∃ d : Int, (d = 1 ∨ d = -1) ∧ r.counter = wrap32 (s.counter + d)
        ∧ r.calls = s.calls ++ (s.callback.map (fun f => (f, wrap32 (s.counter + d)))).toList

/-- The arm channel A works with in `isrA1x` and `isrA2`: `stateA` at entry if
it is nonzero, otherwise `putativestateA` if `holdoff` is nonzero and
`t - lastA` (unsigned) is at least `holdoff`, otherwise 0. -/
def resolvedA (w : Nat) (s : State) (t : Nat) : Int :=
  if s.stateA ≠ 0 then s.stateA
  else if s.holdoff ≠ 0 ∧ s.holdoff ≤ usub w t s.lastA then s.putativestateA
  else 0

/-- The arm channel B works with in `isrB4`: `stateB` at entry if it is
nonzero, otherwise `putativestateB` if `holdoff` is nonzero and `t - lastB`
(unsigned) is at least `holdoff`, otherwise 0. -/
def resolvedB (w : Nat) (s : State) (t : Nat) : Int :=
  if s.stateB ≠ 0 then s.stateB
  else if s.holdoff ≠ 0 ∧ s.holdoff ≤ usub w t s.lastB then s.putativestateB
  else 0

/-- A value of the set {-1, 0, 1}. -/
def Tri (x : Int) : Prop := x = -1 ∨ x = 0 ∨ x = 1

/-- Both arms and both putative values are in {-1, 0, 1}. -/
def TriState (s : State) : Prop :=
  Tri s.stateA ∧ Tri s.stateB ∧ Tri s.putativestateA ∧ Tri s.putativestateB

/-- What can happen to a constructed decoder: one of the five routines runs,
with the level and the time it reads, or the foreground calls `setHoldoff` or
`setCallback`. -/
inductive Op where
  | isrA1 (levelB : Bool)
  | isrB1 (levelA : Bool)
  | isrA1x (levelB : Bool) (t : Nat)
  | isrA2 (levelB : Bool) (t : Nat)
  | isrB4 (levelA : Bool) (t : Nat)
  | setHoldoff (holdoff_us : Nat)
  | setCallback (cb : Option Nat)
  deriving DecidableEq, Repr

/-- The effect of one operation on the globals. -/
def Op.apply (w : Nat) (s : State) : Op → State
  | .isrA1 levelB => RobustQuadrature.isrA1 s levelB
  | .isrB1 levelA => RobustQuadrature.isrB1 s levelA
  | .isrA1x levelB t => RobustQuadrature.isrA1x w s levelB t
  | .isrA2 levelB t => RobustQuadrature.isrA2 w s levelB t
  | .isrB4 levelA t => RobustQuadrature.isrB4 w s levelA t
  | .setHoldoff h => Base.setHoldoff s h
  | .setCallback cb => Base.setCallback s cb

/-- Two states that differ at most in `putativestateA` and `lastA`. -/
def AgreeButPutativeA (s r : State) : Prop :=
  s.counter = r.counter ∧ s.stateA = r.stateA ∧ s.stateB = r.stateB
    ∧ s.callback = r.callback ∧ s.putativestateB = r.putativestateB
    ∧ s.lastB = r.lastB ∧ s.holdoff = r.holdoff ∧ s.calls = r.calls

/-! ## Arithmetic lemmas -/

lemma wrap32_of_inInt32 {x : Int} (h : InInt32 x) : wrap32 x = x := by
  unfold InInt32 at h; unfold wrap32; omega

lemma inInt32_wrap32 (x : Int) : InInt32 (wrap32 x) := by
  unfold InInt32 wrap32; omega

lemma wrap32_wrap32_add (x y : Int) : wrap32 (wrap32 x + y) = wrap32 (x + y) := by
  unfold wrap32; omega

lemma wrap32_succ_ne (x : Int) : wrap32 (x + 1) ≠ x := by
  unfold wrap32; omega

lemma wrap32_pred_ne (x : Int) : wrap32 (x - 1) ≠ x := by
  unfold wrap32; omega

lemma wrap32_add_neg_one_ne (x : Int) : wrap32 (x + -1) ≠ x := by
  unfold wrap32; omega

/-! ## The listener call leaves the globals alone -/

@[simp] lemma notify_counter (s : State) : (notify s).counter = s.counter := by
  unfold notify; split <;> rfl

@[simp] lemma notify_stateA (s : State) : (notify s).stateA = s.stateA := by
  unfold notify; split <;> rfl

@[simp] lemma notify_stateB (s : State) : (notify s).stateB = s.stateB := by
  unfold notify; split <;> rfl

@[simp] lemma notify_callback (s : State) : (notify s).callback = s.callback := by
  unfold notify; split <;> rfl

@[simp] lemma notify_putativestateA (s : State) : (notify s).putativestateA = s.putativestateA := by
  unfold notify; split <;> rfl

@[simp] lemma notify_putativestateB (s : State) : (notify s).putativestateB = s.putativestateB := by
  unfold notify; split <;> rfl

@[simp] lemma notify_lastA (s : State) : (notify s).lastA = s.lastA := by
  unfold notify; split <;> rfl

@[simp] lemma notify_lastB (s : State) : (notify s).lastB = s.lastB := by
  unfold notify; split <;> rfl

@[simp] lemma notify_holdoff (s : State) : (notify s).holdoff = s.holdoff := by
  unfold notify; split <;> rfl

lemma notify_calls (s : State) :
    (notify s).calls = s.calls ++ (s.callback.map (fun f => (f, s.counter))).toList := by
  unfold notify; split <;> simp_all

lemma run_append (w : Nat) (m : Wiring) (s : State) (xs ys : List Edge) :
    run w m s (xs ++ ys) = run w m (run w m s xs) ys := by
  simp [run, List.foldl_append]

lemma run_cycles_succ (w : Nat) (m : Wiring) (s : State) (c : Nat → List Edge) (n : Nat) :
    run w m s (cycles c (n + 1)) = run w m (run w m s (cycles c n)) (c n) := by
  simp [cycles, run_append]

/-! ## Standard resolution: one cycle -/

lemma standard_forward_cycle (w : Nat) (ts : Nat → Nat) (k : Nat) (s : State)
    (hA : s.stateA ≤ 0) :
    (run w standard s (forwardCycle ts k)).counter = wrap32 (s.counter + 1)
      ∧ (run w standard s (forwardCycle ts k)).stateA = -1
      ∧ counterChanges w standard s (forwardCycle ts k) = 1 := by
  have h : ¬ s.stateA > 0 := by omega
  have hne := wrap32_succ_ne s.counter
  cases hcb : s.callback <;>
    simp [run, forwardCycle, counterChanges, handle, standard, isrA1, isrB1, side, notify,
      h, hcb, hne]

lemma standard_reverse_cycle (w : Nat) (ts : Nat → Nat) (k : Nat) (s : State)
    (hA : s.stateA ≤ 0) :
    (run w standard s (reverseCycle ts k)).counter = wrap32 (s.counter - 1)
      ∧ (run w standard s (reverseCycle ts k)).stateA = -1
      ∧ counterChanges w standard s (reverseCycle ts k) = 1 := by
  have h : ¬ s.stateA > 0 := by omega
  have hne := wrap32_add_neg_one_ne s.counter
  have e : s.counter - 1 = s.counter + -1 := by ring
  cases hcb : s.callback <;>
    simp [run, reverseCycle, counterChanges, handle, standard, isrA1, isrB1, side, notify,
      h, hcb, hne, e]

lemma standard_forward_cycles (w : Nat) (ts : Nat → Nat) (s : State)
    (hA : s.stateA ≤ 0) (hc : InInt32 s.counter) (n : Nat) :
    (run w standard s (cycles (forwardCycle ts) n)).counter = wrap32 (s.counter + n)
      ∧ (run w standard s (cycles (forwardCycle ts) n)).stateA ≤ 0 := by
  induction n with
  | zero => simpa [cycles, run, wrap32_of_inInt32 hc] using hA
  | succ n ih =>
    obtain ⟨h1, h2, -⟩ := standard_forward_cycle w ts n _ ih.2
    rw [run_cycles_succ, h1, h2, ih.1, wrap32_wrap32_add]
    refine ⟨?_, by omega⟩
    push_cast; ring_nf

lemma standard_reverse_cycles (w : Nat) (ts : Nat → Nat) (s : State)
    (hA : s.stateA ≤ 0) (hc : InInt32 s.counter) (n : Nat) :
    (run w standard s (cycles (reverseCycle ts) n)).counter = wrap32 (s.counter - n)
      ∧ (run w standard s (cycles (reverseCycle ts) n)).stateA ≤ 0 := by
  induction n with
  | zero => simpa [cycles, run, wrap32_of_inInt32 hc] using hA
  | succ n ih =>
    obtain ⟨h1, h2, -⟩ := standard_reverse_cycle w ts n _ ih.2
    have e : ∀ x : Int, x - 1 = x + -1 := fun x => by ring
    rw [run_cycles_succ, h1, h2, ih.1, e, wrap32_wrap32_add]
    refine ⟨?_, by omega⟩
    push_cast; ring_nf

/-! ## Double and quadruple resolution: one cycle -/

lemma wrap32_two_steps (x a b : Int) : wrap32 (wrap32 (x + a) + b) = wrap32 (x + (a + b)) := by
  unfold wrap32; omega

lemma double_forward_cycle (w : Nat) (ts : Nat → Nat) (k : Nat) (s : State)
    (hA : s.stateA = -1) :
    (run w double s (forwardCycle ts k)).counter = wrap32 (s.counter + 2)
      ∧ (run w double s (forwardCycle ts k)).stateA = -1 := by
  cases hcb : s.callback <;>
    simp [run, forwardCycle, handle, double, isrA2, isrB1, recoverA, side, notify,
      hA, hcb, wrap32_two_steps]

lemma double_reverse_cycle (w : Nat) (ts : Nat → Nat) (k : Nat) (s : State)
    (hA : s.stateA = -1) :
    (run w double s (reverseCycle ts k)).counter = wrap32 (s.counter + -2)
      ∧ (run w double s (reverseCycle ts k)).stateA = -1 := by
  cases hcb : s.callback <;>
    simp [run, reverseCycle, handle, double, isrA2, isrB1, recoverA, side, notify,
      hA, hcb, wrap32_two_steps]

lemma quadruple_forward_cycle (w : Nat) (ts : Nat → Nat) (k : Nat) (s : State)
    (hA : s.stateA = -1) :
    (run w quadruple s (forwardCycle ts k)).counter = wrap32 (s.counter + 4)
      ∧ (run w quadruple s (forwardCycle ts k)).stateA = -1 := by
  cases hcb : s.callback <;>
    simp [run, forwardCycle, handle, quadruple, isrA2, isrB4, recoverA, recoverB, side, notify,
      hA, hcb, wrap32_two_steps]

lemma quadruple_reverse_cycle (w : Nat) (ts : Nat → Nat) (k : Nat) (s : State)
    (hA : s.stateA = -1) :
    (run w quadruple s (reverseCycle ts k)).counter = wrap32 (s.counter + -4)
      ∧ (run w quadruple s (reverseCycle ts k)).stateA = -1 := by
  cases hcb : s.callback <;>
    simp [run, reverseCycle, handle, quadruple, isrA2, isrB4, recoverA, recoverB, side, notify,
      hA, hcb, wrap32_two_steps]

/-- Iterating a cycle that adds `d` to `counter` and restores `stateA = -1`. -/
lemma cycles_counter (w : Nat) (m : Wiring) (c : Nat → List Edge) (d : Int)
    (hcyc : ∀ (k : Nat) (s : State), s.stateA = -1 →
      (run w m s (c k)).counter = wrap32 (s.counter + d) ∧ (run w m s (c k)).stateA = -1)
    (s : State) (hA : s.stateA = -1) (hc : InInt32 s.counter) (n : Nat) :
    (run w m s (cycles c n)).counter = wrap32 (s.counter + d * n)
      ∧ (run w m s (cycles c n)).stateA = -1 := by
  induction n with
  | zero => simpa [cycles, run, wrap32_of_inInt32 hc] using hA
  | succ n ih =>
    obtain ⟨h1, h2⟩ := hcyc n _ ih.2
    rw [run_cycles_succ, h1, h2, ih.1, wrap32_wrap32_add]
    refine ⟨?_, rfl⟩
    push_cast; ring_nf

/-! ## A disarmed channel without recovery -/

lemma isrA1x_post (w : Nat) (s : State) (level : Bool) (t : Nat) :
    (isrA1x w s level t).stateA = 0 ∧ (isrA1x w s level t).lastA = t
      ∧ (isrA1x w s level t).holdoff = s.holdoff := by
  simp only [isrA1x, recoverA]; split_ifs <;> simp_all

lemma isrA2_post (w : Nat) (s : State) (level : Bool) (t : Nat) :
    (isrA2 w s level t).stateA = 0 ∧ (isrA2 w s level t).lastA = t
      ∧ (isrA2 w s level t).holdoff = s.holdoff := by
  simp only [isrA2, recoverA]; split_ifs <;> simp_all

lemma isrB4_post (w : Nat) (s : State) (level : Bool) (t : Nat) :
    (isrB4 w s level t).stateB = 0 ∧ (isrB4 w s level t).lastB = t
      ∧ (isrB4 w s level t).holdoff = s.holdoff := by
  simp only [isrB4, recoverB]; split_ifs <;> simp_all

lemma isrA1x_disarmed (w : Nat) (s : State) (level : Bool) (t : Nat) (h0 : s.stateA = 0)
    (hno : ¬ (s.holdoff ≠ 0 ∧ usub w t s.lastA ≥ s.holdoff)) :
    isrA1x w s level t = { s with stateB := side level, lastA := t } := by
  simp only [isrA1x, recoverA]; simp [h0, hno]

lemma isrA2_disarmed (w : Nat) (s : State) (level : Bool) (t : Nat) (h0 : s.stateA = 0)
    (hno : ¬ (s.holdoff ≠ 0 ∧ usub w t s.lastA ≥ s.holdoff)) :
    isrA2 w s level t = { s with stateB := side level, lastA := t } := by
  simp only [isrA2, recoverA]; simp [h0, hno]

lemma isrB4_disarmed (w : Nat) (s : State) (level : Bool) (t : Nat) (h0 : s.stateB = 0)
    (hno : ¬ (s.holdoff ≠ 0 ∧ usub w t s.lastB ≥ s.holdoff)) :
    isrB4 w s level t = { s with stateA := side level, lastB := t } := by
  simp only [isrB4, recoverB]; simp [h0, hno]

lemma handle_holdoff (w : Nat) (m : Wiring) (s : State) (e : Edge) :
    (handle w m s e).holdoff = s.holdoff := by
  cases e with
  | A level t =>
    cases hm : m.onA
    · simp only [handle, hm, isrA1]; split_ifs <;> simp
    · simpa only [handle, hm] using (isrA1x_post w s level t).2.2
    · simpa only [handle, hm] using (isrA2_post w s level t).2.2
  | B level t =>
    cases hm : m.onB
    · simp [handle, hm, isrB1]
    · simpa only [handle, hm] using (isrB4_post w s level t).2.2

lemma run_holdoff (w : Nat) (m : Wiring) (es : List Edge) (s : State) :
    (run w m s es).holdoff = s.holdoff := by
  induction es generalizing s with
  | nil => rfl
  | cons e es ih =>
    have h := ih (handle w m s e)
    rw [handle_holdoff] at h
    simpa [run] using h

/-! ## What one routine invocation does to `counter` and to the listener -/

lemma isrA1_stepOrSkip (s : State) (level : Bool) : StepOrSkip s (isrA1 s level) := by
  simp only [isrA1, side, StepOrSkip]
  cases level <;> split_ifs <;> simp [notify_calls]

lemma isrA1x_stepOrSkip (w : Nat) (s : State) (level : Bool) (t : Nat) :
    StepOrSkip s (isrA1x w s level t) := by
  simp only [isrA1x, recoverA, side, StepOrSkip]
  cases level <;> split_ifs <;> simp [notify_calls]

lemma isrA2_stepOrSkip (w : Nat) (s : State) (level : Bool) (t : Nat) :
    StepOrSkip s (isrA2 w s level t) := by
  simp only [isrA2, recoverA, side, StepOrSkip]
  cases level <;> split_ifs <;> simp [notify_calls]

lemma isrB4_stepOrSkip (w : Nat) (s : State) (level : Bool) (t : Nat) :
    StepOrSkip s (isrB4 w s level t) := by
  simp only [isrB4, recoverB, side, StepOrSkip]
  cases level <;> split_ifs <;> simp [notify_calls]

lemma StepOrSkip.atMostOneStep {s r : State} (h : StepOrSkip s r) :
    AtMostOneStep s.counter r.counter := by
  rcases h with ⟨h, -⟩ | ⟨d, hd | hd, h, -⟩
  · exact Or.inl h
  · subst hd; exact Or.inr (Or.inl h)
  · subst hd; exact Or.inr (Or.inr h)

lemma StepOrSkip.dispatched {s r : State} (h : StepOrSkip s r) :
    r.calls = s.calls ++ dispatched s.callback s.counter r.counter := by
  rcases h with ⟨h, hc⟩ | ⟨d, hd, h, hc⟩
  · simp [RobustQuadrature.dispatched, h, hc]
  · have hne : wrap32 (s.counter + d) ≠ s.counter := by
      rcases hd with hd | hd <;> subst hd
      · exact wrap32_succ_ne _
      · exact wrap32_add_neg_one_ne _
    rw [hc, h]
    cases hcb : s.callback <;> simp [RobustQuadrature.dispatched, hne]

/-! ## The routines of two and four steps per cycle, by resolved arm -/

lemma wrap8_neg_of_range {a : Int} (h1 : -128 < a) (h2 : a ≤ 127) : wrap8 (-a) = -a := by
  unfold wrap8; omega

lemma isrA2_of_resolved_ne (w : Nat) (s : State) (level : Bool) (t : Nat)
    (h : resolvedA w s t ≠ 0) :
    (isrA2 w s level t).counter
        = wrap32 (s.counter + (if 0 < resolvedA w s t then side level else -side level))
      ∧ (isrA2 w s level t).putativestateA = wrap8 (-resolvedA w s t)
      ∧ (isrA2 w s level t).stateA = 0 := by
  by_cases h0 : s.stateA = 0
  · by_cases hr : s.holdoff ≠ 0 ∧ s.holdoff ≤ usub w t s.lastA
    · have ha : resolvedA w s t = s.putativestateA := by simp [resolvedA, h0, hr]
      rw [ha] at h ⊢
      simp [isrA2, recoverA, h0, hr, h]
    · exact absurd (by simp [resolvedA, h0, hr]) h
  · have ha : resolvedA w s t = s.stateA := by simp [resolvedA, h0]
    rw [ha]
    simp [isrA2, recoverA, h0]

lemma isrA2_of_resolved_eq (w : Nat) (s : State) (level : Bool) (t : Nat)
    (h : resolvedA w s t = 0) :
    (isrA2 w s level t).counter = s.counter
      ∧ (isrA2 w s level t).putativestateA = s.putativestateA
      ∧ (isrA2 w s level t).stateA = 0
      ∧ (isrA2 w s level t).calls = s.calls := by
  by_cases h0 : s.stateA = 0
  · by_cases hr : s.holdoff ≠ 0 ∧ s.holdoff ≤ usub w t s.lastA
    · have ha : s.putativestateA = 0 := by simpa [resolvedA, h0, hr] using h
      simp [isrA2, recoverA, h0, hr, ha]
    · rw [isrA2_disarmed w s level t h0 hr]; exact ⟨rfl, rfl, h0, rfl⟩
  · simp [resolvedA, h0] at h

lemma isrB4_of_resolved_ne (w : Nat) (s : State) (level : Bool) (t : Nat)
    (h : resolvedB w s t ≠ 0) :
    (isrB4 w s level t).counter
        = wrap32 (s.counter + (if 0 < resolvedB w s t then -side level else side level))
      ∧ (isrB4 w s level t).putativestateB = wrap8 (-resolvedB w s t)
      ∧ (isrB4 w s level t).stateB = 0 := by
  by_cases h0 : s.stateB = 0
  · by_cases hr : s.holdoff ≠ 0 ∧ s.holdoff ≤ usub w t s.lastB
    · have ha : resolvedB w s t = s.putativestateB := by simp [resolvedB, h0, hr]
      rw [ha] at h ⊢
      simp [isrB4, recoverB, h0, hr, h]
    · exact absurd (by simp [resolvedB, h0, hr]) h
  · have ha : resolvedB w s t = s.stateB := by simp [resolvedB, h0]
    rw [ha]
    simp [isrB4, recoverB, h0]

lemma isrB4_of_resolved_eq (w : Nat) (s : State) (level : Bool) (t : Nat)
    (h : resolvedB w s t = 0) :
    (isrB4 w s level t).counter = s.counter
      ∧ (isrB4 w s level t).putativestateB = s.putativestateB
      ∧ (isrB4 w s level t).stateB = 0
      ∧ (isrB4 w s level t).calls = s.calls := by
  by_cases h0 : s.stateB = 0
  · by_cases hr : s.holdoff ≠ 0 ∧ s.holdoff ≤ usub w t s.lastB
    · have ha : s.putativestateB = 0 := by simpa [resolvedB, h0, hr] using h
      simp [isrB4, recoverB, h0, hr, ha]
    · rw [isrB4_disarmed w s level t h0 hr]; exact ⟨rfl, rfl, h0, rfl⟩
  · simp [resolvedB, h0] at h

/-! ## What a routine leaves alone -/

lemma isrA1x_frame (w : Nat) (s : State) (level : Bool) (t : Nat) :
    (isrA1x w s level t).stateB = side level
      ∧ (isrA1x w s level t).putativestateB = s.putativestateB
      ∧ (isrA1x w s level t).lastB = s.lastB := by
  simp only [isrA1x, recoverA]; split_ifs <;> simp

lemma isrA2_frame (w : Nat) (s : State) (level : Bool) (t : Nat) :
    (isrA2 w s level t).stateB = side level
      ∧ (isrA2 w s level t).putativestateB = s.putativestateB
      ∧ (isrA2 w s level t).lastB = s.lastB := by
  simp only [isrA2, recoverA]; split_ifs <;> simp

lemma isrB4_frame (w : Nat) (s : State) (level : Bool) (t : Nat) :
    (isrB4 w s level t).stateA = side level
      ∧ (isrB4 w s level t).putativestateA = s.putativestateA
      ∧ (isrB4 w s level t).lastA = s.lastA := by
  simp only [isrB4, recoverB]; split_ifs <;> simp

lemma isrA1_frame (s : State) (level : Bool) :
    (isrA1 s level).stateB = side level
      ∧ (isrA1 s level).putativestateB = s.putativestateB
      ∧ (isrA1 s level).lastB = s.lastB
      ∧ (isrA1 s level).putativestateA = s.putativestateA
      ∧ (isrA1 s level).lastA = s.lastA := by
  simp only [isrA1]; split_ifs <;> simp

/-! ## The tri-state invariant -/

lemma tri_side (level : Bool) : Tri (side level) := by
  cases level <;> simp [Tri, side]

lemma tri_zero : Tri 0 := Or.inr (Or.inl rfl)

lemma tri_wrap8_neg {a : Int} (h : Tri a) : Tri (wrap8 (-a)) := by
  rcases h with h | h | h <;> subst h <;> simp [Tri, wrap8]

lemma tri_resolvedA (w : Nat) (s : State) (t : Nat) (h : TriState s) :
    Tri (resolvedA w s t) := by
  unfold resolvedA; split_ifs
  · exact h.1
  · exact h.2.2.1
  · exact tri_zero

lemma tri_resolvedB (w : Nat) (s : State) (t : Nat) (h : TriState s) :
    Tri (resolvedB w s t) := by
  unfold resolvedB; split_ifs
  · exact h.2.1
  · exact h.2.2.2
  · exact tri_zero

lemma isrA1x_putativestateA (w : Nat) (s : State) (level : Bool) (t : Nat) :
    (isrA1x w s level t).putativestateA = (isrA2 w s level t).putativestateA := by
  simp only [isrA1x, isrA2, recoverA]; split_ifs <;> simp

lemma isrA2_triState (w : Nat) (s : State) (level : Bool) (t : Nat) (h : TriState s) :
    TriState (isrA2 w s level t) := by
  obtain ⟨f1, f2, -⟩ := isrA2_frame w s level t
  refine ⟨?_, ?_, ?_, ?_⟩
  · rw [(isrA2_post w s level t).1]; exact tri_zero
  · rw [f1]; exact tri_side level
  · by_cases hr : resolvedA w s t = 0
    · rw [(isrA2_of_resolved_eq w s level t hr).2.1]; exact h.2.2.1
    · rw [(isrA2_of_resolved_ne w s level t hr).2.1]
      exact tri_wrap8_neg (tri_resolvedA w s t h)
  · rw [f2]; exact h.2.2.2

lemma isrA1x_triState (w : Nat) (s : State) (level : Bool) (t : Nat) (h : TriState s) :
    TriState (isrA1x w s level t) := by
  obtain ⟨f1, f2, -⟩ := isrA1x_frame w s level t
  refine ⟨?_, ?_, ?_, ?_⟩
  · rw [(isrA1x_post w s level t).1]; exact tri_zero
  · rw [f1]; exact tri_side level
  · rw [isrA1x_putativestateA]; exact (isrA2_triState w s level t h).2.2.1
  · rw [f2]; exact h.2.2.2

lemma isrB4_triState (w : Nat) (s : State) (level : Bool) (t : Nat) (h : TriState s) :
    TriState (isrB4 w s level t) := by
  obtain ⟨f1, f2, -⟩ := isrB4_frame w s level t
  refine ⟨?_, ?_, ?_, ?_⟩
  · rw [f1]; exact tri_side level
  · rw [(isrB4_post w s level t).1]; exact tri_zero
  · rw [f2]; exact h.2.2.1
  · by_cases hr : resolvedB w s t = 0
    · rw [(isrB4_of_resolved_eq w s level t hr).2.1]; exact h.2.2.2
    · rw [(isrB4_of_resolved_ne w s level t hr).2.1]
      exact tri_wrap8_neg (tri_resolvedB w s t h)

lemma isrA1_triState (s : State) (level : Bool) (h : TriState s) :
    TriState (isrA1 s level) := by
  obtain ⟨f1, f2, -, f4, -⟩ := isrA1_frame s level
  refine ⟨?_, ?_, ?_, ?_⟩
  · simp only [isrA1]; exact tri_zero
  · rw [f1]; exact tri_side level
  · rw [f4]; exact h.2.2.1
  · rw [f2]; exact h.2.2.2

lemma isrB1_triState (s : State) (level : Bool) (h : TriState s) :
    TriState (isrB1 s level) :=
  ⟨tri_side level, tri_zero, h.2.2.1, h.2.2.2⟩

lemma apply_triState (w : Nat) (s : State) (op : Op) (h : TriState s) :
    TriState (op.apply w s) := by
  cases op with
  | isrA1 levelB => exact isrA1_triState s levelB h
  | isrB1 levelA => exact isrB1_triState s levelA h
  | isrA1x levelB t => exact isrA1x_triState w s levelB t h
  | isrA2 levelB t => exact isrA2_triState w s levelB t h
  | isrB4 levelA t => exact isrB4_triState w s levelA t h
  | setHoldoff v => exact h
  | setCallback cb => exact h

lemma foldl_apply_triState (w : Nat) (ops : List Op) (s : State) (h : TriState s) :
    TriState (ops.foldl (Op.apply w) s) := by
  induction ops generalizing s with
  | nil => exact h
  | cons op ops ih => exact ih _ (apply_triState w s op h)

lemma ctor_triState (levelA levelB : Bool) : TriState (Base.ctor zeroInit levelA levelB) :=
  ⟨tri_side levelB, tri_zero, tri_zero, tri_zero⟩

/-! ## Unsigned subtraction across a wrap of the clock -/

lemma usub_add_mod (w last d : Nat) (hd : d < 2 ^ w) :
    usub w ((last + d) % 2 ^ w) last = d := by
  have hM : 0 < 2 ^ w := Nat.two_pow_pos w
  unfold usub
  generalize 2 ^ w = M at hd hM ⊢
  have hr : last % M < M := Nat.mod_lt _ hM
  have e1 : (last + d) % M = (last % M + d) % M := by
    rw [Nat.add_mod, Nat.mod_eq_of_lt hd]
  rw [e1]
  by_cases hlt : last % M + d < M
  · rw [Nat.mod_eq_of_lt hlt]
    have e2 : last % M + d + (M - last % M) = d + M := by omega
    rw [e2, Nat.add_mod_right, Nat.mod_eq_of_lt hd]
  · have e3 : (last % M + d) % M = last % M + d - M := by
      rw [Nat.mod_eq_sub_mod (by omega), Nat.mod_eq_of_lt (by omega)]
    rw [e3]
    have e4 : last % M + d - M + (M - last % M) = d := by omega
    rw [e4, Nat.mod_eq_of_lt hd]

/-! ## A disarmed channel that recovers -/

lemma wrap32_side_ne (c : Int) (level : Bool) :
    wrap32 (c + side level) ≠ c ∧ wrap32 (c + -side level) ≠ c := by
  cases level
  · exact ⟨by simpa [side] using wrap32_add_neg_one_ne c, by simpa [side] using wrap32_succ_ne c⟩
  · exact ⟨by simpa [side] using wrap32_succ_ne c, by simpa [side] using wrap32_add_neg_one_ne c⟩

lemma isrA2_recovering (w : Nat) (s : State) (level : Bool) (t : Nat) (h0 : s.stateA = 0)
    (hH : s.holdoff ≠ 0) (hge : s.holdoff ≤ usub w t s.lastA) :
    (s.putativestateA ≠ 0 →
        (isrA2 w s level t).counter
            = wrap32 (s.counter + (if 0 < s.putativestateA then side level else -side level))
          ∧ (isrA2 w s level t).counter ≠ s.counter
          ∧ (isrA2 w s level t).putativestateA = wrap8 (-s.putativestateA))
      ∧ (s.putativestateA = 0 →
        (isrA2 w s level t).counter = s.counter
          ∧ (isrA2 w s level t).putativestateA = 0) := by
  have hr : resolvedA w s t = s.putativestateA := by simp [resolvedA, h0, hH, hge]
  refine ⟨fun hp => ?_, fun hp => ?_⟩
  · obtain ⟨c1, p1, -⟩ := isrA2_of_resolved_ne w s level t (by rw [hr]; exact hp)
    rw [hr] at c1 p1
    refine ⟨c1, ?_, p1⟩
    rw [c1]; split_ifs
    · exact (wrap32_side_ne s.counter level).1
    · exact (wrap32_side_ne s.counter level).2
  · obtain ⟨c1, p1, -, -⟩ := isrA2_of_resolved_eq w s level t (by rw [hr]; exact hp)
    exact ⟨c1, by rw [p1, hp]⟩

lemma isrB4_recovering (w : Nat) (s : State) (level : Bool) (t : Nat) (h0 : s.stateB = 0)
    (hH : s.holdoff ≠ 0) (hge : s.holdoff ≤ usub w t s.lastB) :
    (s.putativestateB ≠ 0 →
        (isrB4 w s level t).counter
            = wrap32 (s.counter + (if 0 < s.putativestateB then -side level else side level))
          ∧ (isrB4 w s level t).counter ≠ s.counter
          ∧ (isrB4 w s level t).putativestateB = wrap8 (-s.putativestateB))
      ∧ (s.putativestateB = 0 →
        (isrB4 w s level t).counter = s.counter
          ∧ (isrB4 w s level t).putativestateB = 0) := by
  have hr : resolvedB w s t = s.putativestateB := by simp [resolvedB, h0, hH, hge]
  refine ⟨fun hp => ?_, fun hp => ?_⟩
  · obtain ⟨c1, p1, -⟩ := isrB4_of_resolved_ne w s level t (by rw [hr]; exact hp)
    rw [hr] at c1 p1
    refine ⟨c1, ?_, p1⟩
    rw [c1]; split_ifs
    · exact (wrap32_side_ne s.counter level).2
    · exact (wrap32_side_ne s.counter level).1
  · obtain ⟨c1, p1, -, -⟩ := isrB4_of_resolved_eq w s level t (by rw [hr]; exact hp)
    exact ⟨c1, by rw [p1, hp]⟩

lemma isrA1x_recovering (w : Nat) (s : State) (level : Bool) (t : Nat) (h0 : s.stateA = 0)
    (hH : s.holdoff ≠ 0) (hge : s.holdoff ≤ usub w t s.lastA) :
    (0 < s.putativestateA →
        (isrA1x w s level t).counter = wrap32 (s.counter + side level)
          ∧ (isrA1x w s level t).counter ≠ s.counter)
      ∧ (¬ 0 < s.putativestateA → (isrA1x w s level t).counter = s.counter)
      ∧ (s.putativestateA ≠ 0 →
        (isrA1x w s level t).putativestateA = wrap8 (-s.putativestateA))
      ∧ (s.putativestateA = 0 → (isrA1x w s level t).putativestateA = 0) := by
  obtain ⟨a1, a2⟩ := isrA2_recovering w s level t h0 hH hge
  refine ⟨fun hp => ?_, fun hp => ?_, fun hp => ?_, fun hp => ?_⟩
  · have hne : s.putativestateA ≠ 0 := by omega
    have hc : (isrA1x w s level t).counter = wrap32 (s.counter + side level) := by
      simp [isrA1x, recoverA, h0, hH, hge, hne, hp]
    exact ⟨hc, by rw [hc]; exact (wrap32_side_ne s.counter level).1⟩
  · by_cases hz : s.putativestateA = 0
    · simp [isrA1x, recoverA, h0, hH, hge, hz]
    · simp [isrA1x, recoverA, h0, hH, hge, hz, hp]
  · rw [isrA1x_putativestateA]; exact (a1 hp).2.2
  · rw [isrA1x_putativestateA]; exact (a2 hp).2

/-! ## Two edges of channel A with nothing in between -/

lemma wrap32_step_back {c : Int} (hc : InInt32 c) (d : Int) (hd : d = 1 ∨ d = -1) :
    wrap32 (wrap32 (c + d) + -d) = c ∧ wrap32 (c + d) ≠ c
      ∧ wrap32 (wrap32 (c + d) + -d) ≠ wrap32 (c + d) := by
  unfold InInt32 at hc
  rcases hd with hd | hd <;> subst hd <;> unfold wrap32 <;> refine ⟨?_, ?_, ?_⟩ <;> omega

lemma isrA2_twice (w : Nat) (s : State) (v : Bool) (t1 t2 : Nat)
    (hH : 0 < s.holdoff) (hA : s.stateA ≠ 0) (hlo : -128 < s.stateA) (hhi : s.stateA ≤ 127)
    (hel : s.holdoff ≤ usub w t2 t1) :
    (isrA2 w s v t1).counter
        = wrap32 (s.counter + (if 0 < s.stateA then side v else -side v))
      ∧ (isrA2 w (isrA2 w s v t1) v t2).counter
        = wrap32 ((isrA2 w s v t1).counter + -(if 0 < s.stateA then side v else -side v))
      ∧ (isrA2 w (isrA2 w s v t1) v t2).stateA = 0
      ∧ (isrA2 w (isrA2 w s v t1) v t2).putativestateA = s.stateA := by
  have r1 : resolvedA w s t1 = s.stateA := by simp [resolvedA, hA]
  obtain ⟨c1, p1, -⟩ := isrA2_of_resolved_ne w s v t1 (by rw [r1]; exact hA)
  rw [r1] at c1 p1
  rw [wrap8_neg_of_range hlo hhi] at p1
  obtain ⟨a1, l1, h1⟩ := isrA2_post w s v t1
  have hH1 : (isrA2 w s v t1).holdoff ≠ 0 := by rw [h1]; omega
  have r2 : resolvedA w (isrA2 w s v t1) t2 = -s.stateA := by
    simp [resolvedA, a1, l1, h1, p1, hel]; omega
  obtain ⟨c2, p2, a2⟩ := isrA2_of_resolved_ne w (isrA2 w s v t1) v t2 (by rw [r2]; omega)
  rw [r2] at c2 p2
  refine ⟨c1, ?_, a2, ?_⟩
  · rw [c2]
    by_cases hpos : 0 < s.stateA
    · rw [if_neg (by omega), if_pos hpos]
    · rw [if_pos (by omega), if_neg hpos, neg_neg]
  · rw [p2, neg_neg]; unfold wrap8; omega

/-! ## `isrA1x` against `isrA1` without holdoff -/

lemma isrA1x_agree (w : Nat) (s r : State) (level : Bool) (t : Nat) (h : s.holdoff = 0)
    (hsr : AgreeButPutativeA s r) :
    AgreeButPutativeA (isrA1x w s level t) (isrA1 r level) := by
  obtain ⟨e1, e2, e3, e4, e5, e6, e7, e8⟩ := hsr
  have hno : ¬ (s.holdoff ≠ 0 ∧ usub w t s.lastA ≥ s.holdoff) := by simp [h]
  by_cases h0 : s.stateA = 0
  · have h0r : ¬ r.stateA > 0 := by rw [← e2, h0]; decide
    rw [isrA1x_disarmed w s level t h0 hno]
    simp only [isrA1, h0r, if_false]
    exact ⟨e1, h0, rfl, e4, e5, e6, e7, e8⟩
  · by_cases hpos : s.stateA > 0
    · have hposr : r.stateA > 0 := by rw [← e2]; exact hpos
      simp [isrA1x, isrA1, recoverA, AgreeButPutativeA, h0, hpos, hposr, notify_calls,
        ← e1, ← e4, ← e5, ← e6, ← e7, ← e8]
    · have hposr : ¬ r.stateA > 0 := by rw [← e2]; exact hpos
      simp [isrA1x, isrA1, recoverA, AgreeButPutativeA, h0, hpos, hposr,
        ← e1, ← e4, ← e5, ← e6, ← e7, ← e8]

lemma isrB1_agree (s r : State) (level : Bool) (hsr : AgreeButPutativeA s r) :
    AgreeButPutativeA (isrB1 s level) (isrB1 r level) := by
  obtain ⟨e1, -, -, e4, e5, e6, e7, e8⟩ := hsr
  exact ⟨e1, rfl, rfl, e4, e5, e6, e7, e8⟩

lemma run_agree (w : Nat) (es : List Edge) (s r : State) (h : s.holdoff = 0)
    (hsr : AgreeButPutativeA s r) :
    AgreeButPutativeA (run w { onA := .isrA1x, onB := .isrB1 } s es) (run w standard r es) := by
  induction es generalizing s r with
  | nil => exact hsr
  | cons e es ih =>
    have hstep : AgreeButPutativeA (handle w { onA := .isrA1x, onB := .isrB1 } s e)
        (handle w standard r e) := by
      cases e with
      | A level t => exact isrA1x_agree w s r level t h hsr
      | B level t => exact isrB1_agree s r level hsr
    have hh : (handle w { onA := .isrA1x, onB := .isrB1 } s e).holdoff = 0 := by
      rw [handle_holdoff]; exact h
    exact ih _ _ hh hstep

/-! ## Claims -/

/-- C1. Standard resolution (`isrA1` on pin A, `isrB1` on pin B): from every
start state whose `stateA` is not positive and whose `counter` is an `int32_t`
value, `n` forward cycles leave `counter = start + n` and `n` reverse cycles
leave `counter = start - n`, both reduced to 32 bits, and in each of the `n`
cycles exactly one of the four routine invocations changes `counter`. -/
theorem C1_standard_one_count_per_cycle (w : Nat) (ts : Nat → Nat) (n : Nat) (s : State)
    (hA : s.stateA ≤ 0) (hc : InInt32 s.counter) :
    (run w standard s (cycles (forwardCycle ts) n)).counter = wrap32 (s.counter + n)
      ∧ (run w standard s (cycles (reverseCycle ts) n)).counter = wrap32 (s.counter - n)
      ∧ (∀ k, k < n →
          counterChanges w standard (run w standard s (cycles (forwardCycle ts) k))
            (forwardCycle ts k) = 1)
      ∧ (∀ k, k < n →
          counterChanges w standard (run w standard s (cycles (reverseCycle ts) k))
            (reverseCycle ts k) = 1) := by
  refine ⟨(standard_forward_cycles w ts s hA hc n).1,
    (standard_reverse_cycles w ts s hA hc n).1, ?_, ?_⟩
  · intro k _
    exact (standard_forward_cycle w ts k _ (standard_forward_cycles w ts s hA hc k).2).2.2
  · intro k _
    exact (standard_reverse_cycle w ts k _ (standard_reverse_cycles w ts s hA hc k).2).2.2

/-- Witness of C1: three cycles from zero-initialised globals, 32-bit `unsigned long`. -/
theorem C1_standard_one_count_per_cycle_witness :
    zeroInit.stateA ≤ 0 ∧ InInt32 zeroInit.counter
      ∧ (run 32 standard zeroInit (cycles (forwardCycle (fun i => 1000 * i)) 3)).counter
          = wrap32 (zeroInit.counter + (3 : Nat))
      ∧ (run 32 standard zeroInit (cycles (reverseCycle (fun i => 1000 * i)) 3)).counter
          = wrap32 (zeroInit.counter - (3 : Nat)) :=
  ⟨by decide, by decide,
    (C1_standard_one_count_per_cycle 32 (fun i => 1000 * i) 3 zeroInit
      (by decide) (by decide)).1,
    (C1_standard_one_count_per_cycle 32 (fun i => 1000 * i) 3 zeroInit
      (by decide) (by decide)).2.1⟩

/-- C2. For the same forward and reverse cycles, every `n`, every `holdoff`,
all timestamps and every start state with `stateA = -1` (and an `int32_t`
value in `counter`): double resolution (`isrA2` + `isrB1`) leaves
`counter = start ± 2n`, quadruple resolution (`isrA2` + `isrB4`) leaves
`counter = start ± 4n`, standard resolution (`isrA1` + `isrB1`) leaves
`counter = start ± n`, all reduced to 32 bits; so the double and quadruple
changes are twice and four times the standard change, with the same sign. -/
theorem C2_double_quadruple_scale (w : Nat) (ts : Nat → Nat) (n : Nat) (s : State)
    (hA : s.stateA = -1) (hc : InInt32 s.counter) :
    ((run w double s (cycles (forwardCycle ts) n)).counter = wrap32 (s.counter + 2 * n)
      ∧ (run w double s (cycles (reverseCycle ts) n)).counter = wrap32 (s.counter - 2 * n)
      ∧ (run w quadruple s (cycles (forwardCycle ts) n)).counter = wrap32 (s.counter + 4 * n)
      ∧ (run w quadruple s (cycles (reverseCycle ts) n)).counter = wrap32 (s.counter - 4 * n)
      ∧ (run w standard s (cycles (forwardCycle ts) n)).counter = wrap32 (s.counter + n)
      ∧ (run w standard s (cycles (reverseCycle ts) n)).counter = wrap32 (s.counter - n))
    ∧ ((run w double s (cycles (forwardCycle ts) n)).counter
          = wrap32 (s.counter
              + 2 * ((run w standard s (cycles (forwardCycle ts) n)).counter - s.counter))
      ∧ (run w double s (cycles (reverseCycle ts) n)).counter
          = wrap32 (s.counter
              + 2 * ((run w standard s (cycles (reverseCycle ts) n)).counter - s.counter))
      ∧ (run w quadruple s (cycles (forwardCycle ts) n)).counter
          = wrap32 (s.counter
              + 4 * ((run w standard s (cycles (forwardCycle ts) n)).counter - s.counter))
      ∧ (run w quadruple s (cycles (reverseCycle ts) n)).counter
          = wrap32 (s.counter
              + 4 * ((run w standard s (cycles (reverseCycle ts) n)).counter - s.counter))) := by
  have hA0 : s.stateA ≤ 0 := by omega
  have d1 := (cycles_counter w double (forwardCycle ts) 2
    (double_forward_cycle w ts) s hA hc n).1
  have d2 := (cycles_counter w double (reverseCycle ts) (-2)
    (double_reverse_cycle w ts) s hA hc n).1
  have q1 := (cycles_counter w quadruple (forwardCycle ts) 4
    (quadruple_forward_cycle w ts) s hA hc n).1
  have q2 := (cycles_counter w quadruple (reverseCycle ts) (-4)
    (quadruple_reverse_cycle w ts) s hA hc n).1
  have s1 := (standard_forward_cycles w ts s hA0 hc n).1
  have s2 := (standard_reverse_cycles w ts s hA0 hc n).1
  have e2 : s.counter + -2 * (n : Int) = s.counter - 2 * n := by ring
  have e4 : s.counter + -4 * (n : Int) = s.counter - 4 * n := by ring
  rw [e2] at d2
  rw [e4] at q2
  refine ⟨⟨d1, d2, q1, q2, s1, s2⟩, ?_, ?_, ?_, ?_⟩
  · rw [d1, s1]; unfold wrap32; omega
  · rw [d2, s2]; unfold wrap32; omega
  · rw [q1, s1]; unfold wrap32; omega
  · rw [q2, s2]; unfold wrap32; omega

/-- Witness of C2: five cycles from a freshly constructed `Two` whose pin B
reads low, so that `stateA = -1`. -/
theorem C2_double_quadruple_scale_witness :
    (Two.ctor zeroInit true false).1.stateA = -1
      ∧ InInt32 (Two.ctor zeroInit true false).1.counter
      ∧ (run 32 double (Two.ctor zeroInit true false).1
            (cycles (forwardCycle (fun i => 700 * i)) 5)).counter
          = wrap32 ((Two.ctor zeroInit true false).1.counter + 2 * (5 : Nat))
      ∧ (run 32 quadruple (Two.ctor zeroInit true false).1
            (cycles (reverseCycle (fun i => 700 * i)) 5)).counter
          = wrap32 ((Two.ctor zeroInit true false).1.counter - 4 * (5 : Nat)) :=
  ⟨by decide, by decide,
    (C2_double_quadruple_scale 32 (fun i => 700 * i) 5 (Two.ctor zeroInit true false).1
      (by decide) (by decide)).1.1,
    (C2_double_quadruple_scale 32 (fun i => 700 * i) 5 (Two.ctor zeroInit true false).1
      (by decide) (by decide)).1.2.2.2.1⟩

/-- C3, the claim as stated fails: from a freshly constructed `Two`
(`counter = 0`) the scenario does not end with `counter = 0`. -/
theorem C3_double_scenario_counterexample :
    ¬ ((run 32 double (Two.ctor zeroInit true true).1
          ((scenarioEdges 2000 4000 6000 8000).take 2)).counter = 1
        ∧ (run 32 double (Two.ctor zeroInit true true).1
          (scenarioEdges 2000 4000 6000 8000)).counter = 0) := by
  decide

/-- C3 as amended. Double resolution (`isrB1` + `isrA2`), from any state with
`counter = 0`: after B-edge (A high), A-edge (B high) the counter is 1, and
after the further B-edge (A low), A-edge (B low) it is 2: the second
transition adds as well. -/
theorem C3_double_scenario (w : Nat) (s : State) (t1 t2 t3 t4 : Nat) (hc : s.counter = 0) :
    (run w double s ((scenarioEdges t1 t2 t3 t4).take 2)).counter = 1
      ∧ (run w double s (scenarioEdges t1 t2 t3 t4)).counter = 2 := by
  cases hcb : s.callback <;>
    simp [run, scenarioEdges, handle, double, isrA2, isrB1, recoverA, side, notify,
      hc, hcb, wrap32]

/-- Witness of C3 as amended, on a freshly constructed `Two`. -/
theorem C3_double_scenario_witness :
    (Two.ctor zeroInit true true).1.counter = 0
      ∧ (run 32 double (Two.ctor zeroInit true true).1
          ((scenarioEdges 2000 4000 6000 8000).take 2)).counter = 1
      ∧ (run 32 double (Two.ctor zeroInit true true).1
          (scenarioEdges 2000 4000 6000 8000)).counter = 2 :=
  ⟨by decide, C3_double_scenario 32 (Two.ctor zeroInit true true).1 2000 4000 6000 8000
    (by decide)⟩

/-- C4, the claim as stated fails: a freshly constructed `Four` has `stateB = 0`
and `putativestateB = 0`; a first B-edge after more than `holdoff` microseconds
leaves `counter` as it was. -/
theorem C4_recovery_counterexample :
    0 < (Four.ctor zeroInit true true).1.holdoff
      ∧ (Four.ctor zeroInit true true).1.stateB = 0
      ∧ (Four.ctor zeroInit true true).1.holdoff
          ≤ usub 32 5000 (Four.ctor zeroInit true true).1.lastB
      ∧ (Four.ctor zeroInit true true).1.putativestateB = 0
      ∧ (isrB4 32 (Four.ctor zeroInit true true).1 true 5000).counter
          = (Four.ctor zeroInit true true).1.counter
      ∧ (isrB4 32 (Four.ctor zeroInit true true).1 true 5000).counter
          ≠ wrap32 ((Four.ctor zeroInit true true).1.counter
              + (if (Four.ctor zeroInit true true).1.putativestateB > 0
                  then -side true else side true)) := by
  decide

/-- C4 as amended. With `holdoff > 0`, the arm of the channel 0 at entry, at
least `holdoff` elapsed since the last edge of the channel and a nonzero
putative value, `isrA2` moves `counter` by `+sideB` if `putativestateA > 0` and
by `-sideB` otherwise, and `isrB4` by `-sideA` if `putativestateB > 0` and by
`+sideA` otherwise; in both cases `counter` changes. -/
theorem C4_recovery (w : Nat) (s : State) (level : Bool) (t : Nat) (hH : 0 < s.holdoff) :
    (s.stateA = 0 → s.holdoff ≤ usub w t s.lastA → s.putativestateA ≠ 0 →
        (isrA2 w s level t).counter
            = wrap32 (s.counter + (if s.putativestateA > 0 then side level else -side level))
          ∧ (isrA2 w s level t).counter ≠ s.counter)
      ∧ (s.stateB = 0 → s.holdoff ≤ usub w t s.lastB → s.putativestateB ≠ 0 →
        (isrB4 w s level t).counter
            = wrap32 (s.counter + (if s.putativestateB > 0 then -side level else side level))
          ∧ (isrB4 w s level t).counter ≠ s.counter) := by
  have hH0 : s.holdoff ≠ 0 := by omega
  have hp := wrap32_succ_ne s.counter
  have hm := wrap32_add_neg_one_ne s.counter
  refine ⟨fun h0 hel hput => ?_, fun h0 hel hput => ?_⟩
  · cases level <;> by_cases hpos : s.putativestateA > 0 <;>
      simp [isrA2, recoverA, side, h0, hH0, hel, hput, hpos, hp, hm]
  · cases level <;> by_cases hpos : s.putativestateB > 0 <;>
      simp [isrB4, recoverB, side, h0, hH0, hel, hput, hpos, hp, hm]

/-- Witness of C4 as amended: a `Four` after one A-edge (channel A is then
disarmed with a putative value), and after one more B-edge (channel B likewise). -/
theorem C4_recovery_witness :
    (0 < (run 32 quadruple (Four.ctor zeroInit true true).1 [.A true 100]).holdoff
      ∧ (run 32 quadruple (Four.ctor zeroInit true true).1 [.A true 100]).stateA = 0
      ∧ (run 32 quadruple (Four.ctor zeroInit true true).1 [.A true 100]).putativestateA ≠ 0
      ∧ (isrA2 32 (run 32 quadruple (Four.ctor zeroInit true true).1 [.A true 100])
            false 5000).counter ≠
          (run 32 quadruple (Four.ctor zeroInit true true).1 [.A true 100]).counter)
    ∧ (0 < (run 32 quadruple (Four.ctor zeroInit true true).1
              [.A true 100, .B false 200]).holdoff
      ∧ (run 32 quadruple (Four.ctor zeroInit true true).1
              [.A true 100, .B false 200]).stateB = 0
      ∧ (run 32 quadruple (Four.ctor zeroInit true true).1
              [.A true 100, .B false 200]).putativestateB ≠ 0
      ∧ (isrB4 32 (run 32 quadruple (Four.ctor zeroInit true true).1
              [.A true 100, .B false 200]) true 5000).counter ≠
          (run 32 quadruple (Four.ctor zeroInit true true).1
              [.A true 100, .B false 200]).counter) :=
  ⟨⟨by decide, by decide, by decide,
      ((C4_recovery 32 (run 32 quadruple (Four.ctor zeroInit true true).1 [.A true 100])
        false 5000 (by decide)).1 (by decide) (by decide) (by decide)).2⟩,
    ⟨by decide, by decide, by decide,
      ((C4_recovery 32 (run 32 quadruple (Four.ctor zeroInit true true).1
          [.A true 100, .B false 200])
        true 5000 (by decide)).2 (by decide) (by decide) (by decide)).2⟩⟩

/-- C5. For each of `isrA1x`, `isrA2`, `isrB4`: when the routine runs at `t1`
and again at `t2`, with nothing in between and `t2 - t1` (unsigned) below
`holdoff`, the second invocation leaves `counter` unchanged, calls no
listener, leaves the arm of the channel at 0 and its putative value unchanged. -/
theorem C5_no_recovery_before_holdoff (w : Nat) (s : State) (l1 l2 : Bool) (t1 t2 : Nat)
    (h : usub w t2 t1 < s.holdoff) :
    ((isrA1x w (isrA1x w s l1 t1) l2 t2).counter = (isrA1x w s l1 t1).counter
      ∧ (isrA1x w (isrA1x w s l1 t1) l2 t2).calls = (isrA1x w s l1 t1).calls
      ∧ (isrA1x w (isrA1x w s l1 t1) l2 t2).stateA = 0
      ∧ (isrA1x w (isrA1x w s l1 t1) l2 t2).putativestateA
          = (isrA1x w s l1 t1).putativestateA)
    ∧ ((isrA2 w (isrA2 w s l1 t1) l2 t2).counter = (isrA2 w s l1 t1).counter
      ∧ (isrA2 w (isrA2 w s l1 t1) l2 t2).calls = (isrA2 w s l1 t1).calls
      ∧ (isrA2 w (isrA2 w s l1 t1) l2 t2).stateA = 0
      ∧ (isrA2 w (isrA2 w s l1 t1) l2 t2).putativestateA
          = (isrA2 w s l1 t1).putativestateA)
    ∧ ((isrB4 w (isrB4 w s l1 t1) l2 t2).counter = (isrB4 w s l1 t1).counter
      ∧ (isrB4 w (isrB4 w s l1 t1) l2 t2).calls = (isrB4 w s l1 t1).calls
      ∧ (isrB4 w (isrB4 w s l1 t1) l2 t2).stateB = 0
      ∧ (isrB4 w (isrB4 w s l1 t1) l2 t2).putativestateB
          = (isrB4 w s l1 t1).putativestateB) := by
  refine ⟨?_, ?_, ?_⟩
  · obtain ⟨p0, pl, ph⟩ := isrA1x_post w s l1 t1
    have hno : ¬ ((isrA1x w s l1 t1).holdoff ≠ 0
        ∧ usub w t2 (isrA1x w s l1 t1).lastA ≥ (isrA1x w s l1 t1).holdoff) := by
      rw [pl, ph]; omega
    rw [isrA1x_disarmed w _ l2 t2 p0 hno]
    exact ⟨rfl, rfl, p0, rfl⟩
  · obtain ⟨p0, pl, ph⟩ := isrA2_post w s l1 t1
    have hno : ¬ ((isrA2 w s l1 t1).holdoff ≠ 0
        ∧ usub w t2 (isrA2 w s l1 t1).lastA ≥ (isrA2 w s l1 t1).holdoff) := by
      rw [pl, ph]; omega
    rw [isrA2_disarmed w _ l2 t2 p0 hno]
    exact ⟨rfl, rfl, p0, rfl⟩
  · obtain ⟨p0, pl, ph⟩ := isrB4_post w s l1 t1
    have hno : ¬ ((isrB4 w s l1 t1).holdoff ≠ 0
        ∧ usub w t2 (isrB4 w s l1 t1).lastB ≥ (isrB4 w s l1 t1).holdoff) := by
      rw [pl, ph]; omega
    rw [isrB4_disarmed w _ l2 t2 p0 hno]
    exact ⟨rfl, rfl, p0, rfl⟩

/-- Witness of C5: a `Four` whose pin A bounces 200 microseconds after an edge
that counted; the timestamps wrap around `2 ^ 32` in between. -/
theorem C5_no_recovery_before_holdoff_witness :
    usub 32 100 4294967196 < (Four.ctor zeroInit true true).1.holdoff
      ∧ (isrA2 32 (Four.ctor zeroInit true true).1 true 4294967196).counter = 1
      ∧ (isrA2 32 (isrA2 32 (Four.ctor zeroInit true true).1 true 4294967196)
            false 100).counter
          = (isrA2 32 (Four.ctor zeroInit true true).1 true 4294967196).counter :=
  ⟨by decide, by decide,
    (C5_no_recovery_before_holdoff 32 (Four.ctor zeroInit true true).1 true false
      4294967196 100 (by decide)).2.1.1⟩

/-- C6. After `setHoldoff(0)` (`Base::setHoldoff`, or `One::setHoldoff`, which
also rewires pin A), whatever the holdoff was before and whatever edges were
handled since (none included): a routine that finds the arm of its channel at 0
leaves `counter` unchanged, calls no listener and leaves the arm at 0, for all
putative values, timestamps and last edge times. -/
theorem C6_holdoff_zero_disables_recovery (w : Nat) (m : Wiring) (s0 : State)
    (es : List Edge) (level : Bool) (t : Nat) (s : State)
    (hs : s = run w m (Base.setHoldoff s0 0) es
      ∨ s = run w (One.setHoldoff (s0, m) 0).2 (One.setHoldoff (s0, m) 0).1 es) :
    (s.stateA = 0 →
        ((isrA1x w s level t).counter = s.counter ∧ (isrA1x w s level t).calls = s.calls
          ∧ (isrA1x w s level t).stateA = 0)
        ∧ ((isrA2 w s level t).counter = s.counter ∧ (isrA2 w s level t).calls = s.calls
          ∧ (isrA2 w s level t).stateA = 0))
      ∧ (s.stateB = 0 →
        (isrB4 w s level t).counter = s.counter ∧ (isrB4 w s level t).calls = s.calls
          ∧ (isrB4 w s level t).stateB = 0) := by
  have hh : s.holdoff = 0 := by
    rcases hs with hs | hs <;> rw [hs, run_holdoff] <;> rfl
  have hnoA : ¬ (s.holdoff ≠ 0 ∧ usub w t s.lastA ≥ s.holdoff) := by simp [hh]
  have hnoB : ¬ (s.holdoff ≠ 0 ∧ usub w t s.lastB ≥ s.holdoff) := by simp [hh]
  refine ⟨fun h0 => ⟨?_, ?_⟩, fun h0 => ?_⟩
  · rw [isrA1x_disarmed w s level t h0 hnoA]; exact ⟨rfl, rfl, h0⟩
  · rw [isrA2_disarmed w s level t h0 hnoA]; exact ⟨rfl, rfl, h0⟩
  · rw [isrB4_disarmed w s level t h0 hnoB]; exact ⟨rfl, rfl, h0⟩

/-- Witness of C6: a `Four` that counted one A-edge (channel A disarmed, putative
value -1, holdoff 1000), then `setHoldoff(0)`, then at once an A-edge 4900
microseconds after the first: nothing is counted. -/
theorem C6_holdoff_zero_disables_recovery_witness :
    (run 32 quadruple (Four.ctor zeroInit true true).1 [.A true 100]).holdoff = 1000
      ∧ (Base.setHoldoff
          (run 32 quadruple (Four.ctor zeroInit true true).1 [.A true 100]) 0).stateA = 0
      ∧ (isrA2 32 (Base.setHoldoff
          (run 32 quadruple (Four.ctor zeroInit true true).1 [.A true 100]) 0)
            false 5000).counter
          = (Base.setHoldoff
              (run 32 quadruple (Four.ctor zeroInit true true).1 [.A true 100]) 0).counter :=
  ⟨by decide, by decide,
    ((C6_holdoff_zero_disables_recovery 32 quadruple
      (run 32 quadruple (Four.ctor zeroInit true true).1 [.A true 100]) [] false 5000
      (Base.setHoldoff (run 32 quadruple (Four.ctor zeroInit true true).1 [.A true 100]) 0)
      (Or.inl rfl)).1 (by decide)).2.1⟩

/-- C7. Every routine (`isrA1`, `isrB1`, `isrA1x`, `isrA2`, `isrB4`) leaves
`counter` unchanged or moves it by exactly +1 or -1 as an `int32_t`, for every
state and input; `setHoldoff` (of `Base` and of `One`), `setCallback` and
`position` leave `counter` unchanged. -/
theorem C7_counter_steps (w : Nat) (s : State) (level : Bool) (t : Nat) :
    (AtMostOneStep s.counter (isrA1 s level).counter
      ∧ AtMostOneStep s.counter (isrB1 s level).counter
      ∧ AtMostOneStep s.counter (isrA1x w s level t).counter
      ∧ AtMostOneStep s.counter (isrA2 w s level t).counter
      ∧ AtMostOneStep s.counter (isrB4 w s level t).counter)
    ∧ (∀ (h : Nat) (m : Wiring) (cb : Option Nat) (narrow irq : Bool),
        (Base.setHoldoff s h).counter = s.counter
          ∧ (One.setHoldoff (s, m) h).1.counter = s.counter
          ∧ (Base.setCallback s cb).counter = s.counter
          ∧ (Base.position narrow s irq).2.1.counter = s.counter) := by
  refine ⟨⟨(isrA1_stepOrSkip s level).atMostOneStep, ?_,
    (isrA1x_stepOrSkip w s level t).atMostOneStep,
    (isrA2_stepOrSkip w s level t).atMostOneStep,
    (isrB4_stepOrSkip w s level t).atMostOneStep⟩, ?_⟩
  · simp [isrB1, AtMostOneStep]
  · intro h m cb narrow irq
    refine ⟨rfl, rfl, rfl, ?_⟩
    cases narrow <;> rfl

/-- C8. For `isrA1`, `isrA1x`, `isrA2` and `isrB4`, every state and input: the
calls made through `callback` during one invocation are exactly one call of the
installed function with the new value of `counter` when the invocation changed
`counter`, and none when it left `counter` unchanged or when no function is
installed; `isrB1` makes no call. -/
theorem C8_listener_dispatch (w : Nat) (s : State) (level : Bool) (t : Nat) :
    (isrA1 s level).calls
        = s.calls ++ dispatched s.callback s.counter (isrA1 s level).counter
      ∧ (isrA1x w s level t).calls
        = s.calls ++ dispatched s.callback s.counter (isrA1x w s level t).counter
      ∧ (isrA2 w s level t).calls
        = s.calls ++ dispatched s.callback s.counter (isrA2 w s level t).counter
      ∧ (isrB4 w s level t).calls
        = s.calls ++ dispatched s.callback s.counter (isrB4 w s level t).counter
      ∧ (isrB1 s level).calls = s.calls := by
  exact ⟨(isrA1_stepOrSkip s level).dispatched, (isrA1x_stepOrSkip w s level t).dispatched,
    (isrA2_stepOrSkip w s level t).dispatched, (isrB4_stepOrSkip w s level t).dispatched,
    by simp [isrB1]⟩

/-- C9, what the code does at construction: `Base::Base()` (and with it `One`,
`Two`, `Four`) seeds `stateA` from the level of pin B and leaves `stateB` as it
was; on zero-initialised globals `stateB` stays 0, which is neither value the
level of pin A would give. -/
theorem C9_ctor_leaves_stateB_unseeded (g : State) (levelA levelB : Bool) :
    (Base.ctor g levelA levelB).stateA = side levelB
      ∧ (Base.ctor g levelA levelB).stateB = g.stateB
      ∧ (One.ctor g levelA levelB).1.stateB = g.stateB
      ∧ (Two.ctor g levelA levelB).1.stateB = g.stateB
      ∧ (Four.ctor g levelA levelB).1.stateB = g.stateB
      ∧ (Base.ctor zeroInit levelA levelB).stateB = 0
      ∧ (Base.ctor zeroInit levelA levelB).stateB ≠ side levelA := by
  refine ⟨rfl, rfl, rfl, rfl, rfl, rfl, ?_⟩
  cases levelA <;> cases levelB <;> decide

/-- C10. `position()` returns the current `counter` and leaves every global of
the decoder as it was, on both kinds of target; hence `n` consecutive calls
return `n` times the same value. -/
theorem C10_position_reads_counter (narrow : Bool) (s : State) (irq : Bool) (n : Nat) :
    (Base.position narrow s irq).1 = s.counter
      ∧ (Base.position narrow s irq).2.1 = s
      ∧ positionCalls narrow n s irq = List.replicate n s.counter := by
  refine ⟨by cases narrow <;> rfl, by cases narrow <;> rfl, ?_⟩
  induction n generalizing irq with
  | zero => rfl
  | succ n ih =>
    cases narrow
    · simpa [positionCalls, Base.position, List.replicate_succ] using ih irq
    · simpa [positionCalls, Base.position, List.replicate_succ] using ih true

/-- C11. `isrA1`, for every state and level of B: `counter` becomes
`counter + sideB` (as `int32_t`; exactly that sum whenever it is an `int32_t`
value) if `stateA > 0` at entry and is unchanged otherwise, and `stateA` is 0
afterwards.  From `counter = 0`, the edges B (A high), A (B high), B (A low),
A (B low) give `counter = 1` after the first A-edge, with one call of the
installed function with argument 1, and still `counter = 1` and no further
call after the second A-edge. -/
theorem C11_isrA1_rule (w : Nat) (s : State) (level : Bool) (s0 : State)
    (t1 t2 t3 t4 : Nat) (hc : s0.counter = 0) :
    ((0 < s.stateA → (isrA1 s level).counter = wrap32 (s.counter + side level)
        ∧ (InInt32 (s.counter + side level) →
            (isrA1 s level).counter = s.counter + side level))
      ∧ (¬ 0 < s.stateA → (isrA1 s level).counter = s.counter)
      ∧ (isrA1 s level).stateA = 0)
    ∧ ((run w standard s0 ((scenarioEdges t1 t2 t3 t4).take 2)).counter = 1
      ∧ (run w standard s0 ((scenarioEdges t1 t2 t3 t4).take 2)).calls
          = s0.calls ++ (s0.callback.map (fun f => (f, (1 : Int)))).toList
      ∧ (run w standard s0 (scenarioEdges t1 t2 t3 t4)).counter = 1
      ∧ (run w standard s0 (scenarioEdges t1 t2 t3 t4)).calls
          = (run w standard s0 ((scenarioEdges t1 t2 t3 t4).take 2)).calls) := by
  refine ⟨⟨fun h => ?_, fun h => ?_, ?_⟩, ?_⟩
  · have hcnt : (isrA1 s level).counter = wrap32 (s.counter + side level) := by
      simp [isrA1, h]
    exact ⟨hcnt, fun hr => by rw [hcnt, wrap32_of_inInt32 hr]⟩
  · simp [isrA1, h]
  · simp only [isrA1]
  · cases hcb : s0.callback <;>
      simp [run, scenarioEdges, handle, standard, isrA1, isrB1, side, notify, hc, hcb, wrap32]

/-- Witness of C11: a fresh `One` with a listener installed. -/
theorem C11_isrA1_rule_witness :
    (Base.setCallback (One.ctor zeroInit true true).1 (some 7)).counter = 0
      ∧ (run 32 standard (Base.setCallback (One.ctor zeroInit true true).1 (some 7))
          ((scenarioEdges 10 20 30 40).take 2)).calls = [(7, 1)]
      ∧ (run 32 standard (Base.setCallback (One.ctor zeroInit true true).1 (some 7))
          (scenarioEdges 10 20 30 40)).counter = 1 :=
  ⟨by decide,
    (C11_isrA1_rule 32 zeroInit true
      (Base.setCallback (One.ctor zeroInit true true).1 (some 7)) 10 20 30 40
      (by decide)).2.2.1,
    (C11_isrA1_rule 32 zeroInit true
      (Base.setCallback (One.ctor zeroInit true true).1 (some 7)) 10 20 30 40
      (by decide)).2.2.2.1⟩

/-- C12. `isrB1`, for every state and level of A: afterwards `stateA` is +1 if A
is high and -1 otherwise, `stateB` is 0, `counter` is unchanged and no call was
made through `callback`. -/
theorem C12_isrB1_rule (s : State) (level : Bool) :
    (isrB1 s level).stateA = (if level then 1 else -1)
      ∧ (isrB1 s level).stateB = 0
      ∧ (isrB1 s level).counter = s.counter
      ∧ (isrB1 s level).calls = s.calls := by
  simp [isrB1, side]

/-- C13. `isrA2`, for every state and input, with `a` the resolved arm of
channel A (`stateA` if nonzero, else `putativestateA` if `holdoff` is nonzero
and `t - lastA >= holdoff`, else 0): if `a` is nonzero, `counter` becomes
`counter + sideB` when `a > 0` and `counter - sideB` when `a < 0` (as `int32_t`),
`putativestateA` becomes `-a` (as `signed char`; exactly `-a` for every `a`
other than `SCHAR_MIN`) and `stateA` becomes 0; if `a` is 0, `counter` and
`putativestateA` are unchanged and `stateA` is 0. -/
theorem C13_isrA2_rule (w : Nat) (s : State) (level : Bool) (t : Nat) :
    (resolvedA w s t ≠ 0 →
        (0 < resolvedA w s t →
          (isrA2 w s level t).counter = wrap32 (s.counter + side level))
        ∧ (resolvedA w s t < 0 →
          (isrA2 w s level t).counter = wrap32 (s.counter - side level))
        ∧ (isrA2 w s level t).putativestateA = wrap8 (-resolvedA w s t)
        ∧ (-128 < resolvedA w s t → resolvedA w s t ≤ 127 →
          (isrA2 w s level t).putativestateA = -resolvedA w s t)
        ∧ (isrA2 w s level t).stateA = 0)
      ∧ (resolvedA w s t = 0 →
        (isrA2 w s level t).counter = s.counter
        ∧ (isrA2 w s level t).putativestateA = s.putativestateA
        ∧ (isrA2 w s level t).stateA = 0) := by
  refine ⟨fun h => ?_, fun h => ?_⟩
  · obtain ⟨hc, hp, ha⟩ := isrA2_of_resolved_ne w s level t h
    refine ⟨fun hpos => ?_, fun hneg => ?_, hp, fun h1 h2 => ?_, ha⟩
    · rw [hc, if_pos hpos]
    · rw [hc, if_neg (by omega), sub_eq_add_neg]
    · rw [hp, wrap8_neg_of_range h1 h2]
  · obtain ⟨hc, hp, ha, -⟩ := isrA2_of_resolved_eq w s level t h
    exact ⟨hc, hp, ha⟩

/-- Witness of C13: a `Four` that counted one A-edge; a second A-edge 4900
microseconds later is resolved by the putative value -1 and counts `-sideB`. -/
theorem C13_isrA2_rule_witness :
    resolvedA 32 (run 32 quadruple (Four.ctor zeroInit true true).1 [.A true 100]) 5000 = -1
      ∧ (isrA2 32 (run 32 quadruple (Four.ctor zeroInit true true).1 [.A true 100])
          false 5000).counter
        = wrap32 ((run 32 quadruple (Four.ctor zeroInit true true).1 [.A true 100]).counter
            - side false)
      ∧ (isrA2 32 (run 32 quadruple (Four.ctor zeroInit true true).1 [.A true 100])
          false 5000).putativestateA = 1 :=
  ⟨by decide,
    ((C13_isrA2_rule 32 (run 32 quadruple (Four.ctor zeroInit true true).1 [.A true 100])
      false 5000).1 (by decide)).2.1 (by decide),
    ((C13_isrA2_rule 32 (run 32 quadruple (Four.ctor zeroInit true true).1 [.A true 100])
      false 5000).1 (by decide)).2.2.2.1 (by decide) (by decide)⟩

/-- C14. `isrB4`, for every state and input, with `b` the resolved arm of
channel B (`stateB` if nonzero, else `putativestateB` if `holdoff` is nonzero
and `t - lastB >= holdoff`, else 0): if `b` is nonzero, `counter` becomes
`counter + sideA` when `b < 0` and `counter - sideA` when `b > 0` (as `int32_t`),
`putativestateB` becomes `-b` (as `signed char`; exactly `-b` for every `b`
other than `SCHAR_MIN`) and `stateB` becomes 0; if `b` is 0, `counter` and
`putativestateB` are unchanged and `stateB` is 0. -/
theorem C14_isrB4_rule (w : Nat) (s : State) (level : Bool) (t : Nat) :
    (resolvedB w s t ≠ 0 →
        (resolvedB w s t < 0 →
          (isrB4 w s level t).counter = wrap32 (s.counter + side level))
        ∧ (0 < resolvedB w s t →
          (isrB4 w s level t).counter = wrap32 (s.counter - side level))
        ∧ (isrB4 w s level t).putativestateB = wrap8 (-resolvedB w s t)
        ∧ (-128 < resolvedB w s t → resolvedB w s t ≤ 127 →
          (isrB4 w s level t).putativestateB = -resolvedB w s t)
        ∧ (isrB4 w s level t).stateB = 0)
      ∧ (resolvedB w s t = 0 →
        (isrB4 w s level t).counter = s.counter
        ∧ (isrB4 w s level t).putativestateB = s.putativestateB
        ∧ (isrB4 w s level t).stateB = 0) := by
  refine ⟨fun h => ?_, fun h => ?_⟩
  · obtain ⟨hc, hp, ha⟩ := isrB4_of_resolved_ne w s level t h
    refine ⟨fun hneg => ?_, fun hpos => ?_, hp, fun h1 h2 => ?_, ha⟩
    · rw [hc, if_neg (by omega)]
    · rw [hc, if_pos hpos, sub_eq_add_neg]
    · rw [hp, wrap8_neg_of_range h1 h2]
  · obtain ⟨hc, hp, ha, -⟩ := isrB4_of_resolved_eq w s level t h
    exact ⟨hc, hp, ha⟩

/-- Witness of C14: a `Four` after an A-edge (which arms B with +1); the B-edge
that follows with A low counts `-sideA = +1` and records the putative value -1. -/
theorem C14_isrB4_rule_witness :
    resolvedB 32 (run 32 quadruple (Four.ctor zeroInit true true).1 [.A true 100]) 200 = 1
      ∧ (isrB4 32 (run 32 quadruple (Four.ctor zeroInit true true).1 [.A true 100])
          false 200).counter
        = wrap32 ((run 32 quadruple (Four.ctor zeroInit true true).1 [.A true 100]).counter
            - side false)
      ∧ (isrB4 32 (run 32 quadruple (Four.ctor zeroInit true true).1 [.A true 100])
          false 200).putativestateB = -1 :=
  ⟨by decide,
    ((C14_isrB4_rule 32 (run 32 quadruple (Four.ctor zeroInit true true).1 [.A true 100])
      false 200).1 (by decide)).2.1 (by decide),
    ((C14_isrB4_rule 32 (run 32 quadruple (Four.ctor zeroInit true true).1 [.A true 100])
      false 200).1 (by decide)).2.2.2.1 (by decide) (by decide)⟩

/-- C15, the claim as stated fails: on a fresh `One`, `isrA1` with B high changes
`stateB` from 0 to 1, and `isrB1` with A low changes `stateA` from 1 to -1. -/
theorem C15_frame_counterexample :
    (One.ctor zeroInit true true).1.stateB = 0
      ∧ (isrA1 (One.ctor zeroInit true true).1 true).stateB = 1
      ∧ (One.ctor zeroInit true true).1.stateA = 1
      ∧ (isrB1 (One.ctor zeroInit true true).1 false).stateA = -1 := by
  decide

/-- C15 as amended. For every state and input, every routine of channel A
(`isrA1`, `isrA1x`, `isrA2`) leaves `putativestateB` and `lastB` unchanged and
sets `stateB` to the side it samples on pin B; every routine of channel B
(`isrB1`, `isrB4`) leaves `putativestateA` and `lastA` unchanged and sets
`stateA` to the side it samples on pin A. -/
theorem C15_frame (w : Nat) (s : State) (level : Bool) (t : Nat) :
    ((isrA1 s level).putativestateB = s.putativestateB
        ∧ (isrA1 s level).lastB = s.lastB ∧ (isrA1 s level).stateB = side level)
      ∧ ((isrA1x w s level t).putativestateB = s.putativestateB
        ∧ (isrA1x w s level t).lastB = s.lastB ∧ (isrA1x w s level t).stateB = side level)
      ∧ ((isrA2 w s level t).putativestateB = s.putativestateB
        ∧ (isrA2 w s level t).lastB = s.lastB ∧ (isrA2 w s level t).stateB = side level)
      ∧ ((isrB1 s level).putativestateA = s.putativestateA
        ∧ (isrB1 s level).lastA = s.lastA ∧ (isrB1 s level).stateA = side level)
      ∧ ((isrB4 w s level t).putativestateA = s.putativestateA
        ∧ (isrB4 w s level t).lastA = s.lastA ∧ (isrB4 w s level t).stateA = side level) := by
  obtain ⟨a1, a2, a3, -, -⟩ := isrA1_frame s level
  obtain ⟨x1, x2, x3⟩ := isrA1x_frame w s level t
  obtain ⟨d1, d2, d3⟩ := isrA2_frame w s level t
  obtain ⟨b1, b2, b3⟩ := isrB4_frame w s level t
  exact ⟨⟨a2, a3, a1⟩, ⟨x2, x3, x1⟩, ⟨d2, d3, d1⟩, ⟨rfl, rfl, rfl⟩, ⟨b2, b3, b1⟩⟩

/-- C16, the claim as stated fails: on a fresh `One`, whose `lastA` and `lastB`
are 0, an A-edge and a B-edge at time 5000 leave `lastA` and `lastB` at 0. -/
theorem C16_timestamp_counterexample :
    (handle 32 standard (One.ctor zeroInit true true).1 (.A true 5000)).lastA = 0
      ∧ (handle 32 standard (One.ctor zeroInit true true).1 (.A true 5000)).lastA ≠ 5000
      ∧ (handle 32 standard (One.ctor zeroInit true true).1 (.B true 5000)).lastB = 0
      ∧ (handle 32 standard (One.ctor zeroInit true true).1 (.B true 5000)).lastB ≠ 5000 := by
  decide

/-- C16 as amended. For every state and input, the routines that read the
clock (`isrA1x` and `isrA2` on channel A, `isrB4` on channel B) leave `lastA`,
respectively `lastB`, equal to the timestamp read at entry, whether or not
they counted; `isrA1` and `isrB1` do not read the clock and leave `lastA` and
`lastB` unchanged. -/
theorem C16_timestamp (w : Nat) (s : State) (level : Bool) (t : Nat) :
    (isrA1x w s level t).lastA = t
      ∧ (isrA2 w s level t).lastA = t
      ∧ (isrB4 w s level t).lastB = t
      ∧ (isrA1 s level).lastA = s.lastA ∧ (isrA1 s level).lastB = s.lastB
      ∧ (isrB1 s level).lastA = s.lastA ∧ (isrB1 s level).lastB = s.lastB := by
  exact ⟨(isrA1x_post w s level t).2.1, (isrA2_post w s level t).2.1,
    (isrB4_post w s level t).2.1, (isrA1_frame s level).2.2.2.2, (isrA1_frame s level).2.2.1,
    rfl, rfl⟩

/-- C17. In every state reached from a decoder constructed on zero-initialised
globals (by `Base`, `One`, `Two` or `Four`) through any finite sequence of
routine invocations (`isrA1`, `isrB1`, `isrA1x`, `isrA2`, `isrB4`, with any
levels and timestamps) and `setHoldoff` / `setCallback` calls, `stateA`,
`stateB`, `putativestateA` and `putativestateB` are each in {-1, 0, 1}. -/
theorem C17_tri_state_invariant (w : Nat) (levelA levelB : Bool) (ops : List Op) :
    TriState (ops.foldl (Op.apply w) (Base.ctor zeroInit levelA levelB))
      ∧ TriState (ops.foldl (Op.apply w) (One.ctor zeroInit levelA levelB).1)
      ∧ TriState (ops.foldl (Op.apply w) (Two.ctor zeroInit levelA levelB).1)
      ∧ TriState (ops.foldl (Op.apply w) (Four.ctor zeroInit levelA levelB).1) :=
  ⟨foldl_apply_triState w ops _ (ctor_triState levelA levelB),
    foldl_apply_triState w ops _ (ctor_triState levelA levelB),
    foldl_apply_triState w ops _ (ctor_triState levelA levelB),
    foldl_apply_triState w ops _ (ctor_triState levelA levelB)⟩

/-- C18. With `w` the bit width of `unsigned long`, a nonzero `holdoff`, a true
elapsed time `d < 2 ^ w` and the clock reading `t = (last + d) mod 2 ^ w`
(which may be below `last`): the difference `t - last` the routines compare
with `holdoff` is `d`, and a disarmed channel takes its arm from the putative
value exactly when `d >= holdoff`.  Below `holdoff`, `isrA1x`, `isrA2` and
`isrB4` only record the sampled side and the time.  From `holdoff` on they
resolve the edge with the putative value `p`: `isrA2` moves `counter` by
`+sideB` if `p > 0` and `-sideB` if `p < 0`, `isrB4` by `-sideA` if `p > 0` and
`+sideA` if `p < 0`, `isrA1x` by `+sideB` if `p > 0`, each storing `-p` (as
`signed char`) as the new putative value when `p` is nonzero, clearing the
arm and recording `t`.  Hence `isrA2` and `isrB4` change `counter` if and only
if `d >= holdoff` and `p` is nonzero, and `isrA1x` if and only if
`d >= holdoff` and `p > 0`. -/
theorem C18_wraparound_safe (w : Nat) (s : State) (d : Nat) (level : Bool)
    (hd : d < 2 ^ w) (hH : s.holdoff ≠ 0) :
    (s.stateA = 0 →
        usub w ((s.lastA + d) % 2 ^ w) s.lastA = d
        ∧ recoverA w s ((s.lastA + d) % 2 ^ w)
            = (if s.holdoff ≤ d then { s with stateA := s.putativestateA } else s)
        ∧ (¬ s.holdoff ≤ d →
            isrA1x w s level ((s.lastA + d) % 2 ^ w)
                = { s with stateB := side level, lastA := (s.lastA + d) % 2 ^ w }
              ∧ isrA2 w s level ((s.lastA + d) % 2 ^ w)
                = { s with stateB := side level, lastA := (s.lastA + d) % 2 ^ w })
        ∧ (s.holdoff ≤ d →
            isrA1x w s level ((s.lastA + d) % 2 ^ w)
                = isrA1x w { s with stateA := s.putativestateA } level
                    ((s.lastA + d) % 2 ^ w)
              ∧ isrA2 w s level ((s.lastA + d) % 2 ^ w)
                = isrA2 w { s with stateA := s.putativestateA } level
                    ((s.lastA + d) % 2 ^ w))
        ∧ (s.holdoff ≤ d →
            (s.putativestateA ≠ 0 →
              (isrA2 w s level ((s.lastA + d) % 2 ^ w)).counter
                  = wrap32 (s.counter
                      + (if 0 < s.putativestateA then side level else -side level))
                ∧ (isrA2 w s level ((s.lastA + d) % 2 ^ w)).counter ≠ s.counter
                ∧ (isrA2 w s level ((s.lastA + d) % 2 ^ w)).putativestateA
                  = wrap8 (-s.putativestateA)
                ∧ (isrA1x w s level ((s.lastA + d) % 2 ^ w)).putativestateA
                  = wrap8 (-s.putativestateA))
            ∧ (s.putativestateA = 0 →
              (isrA2 w s level ((s.lastA + d) % 2 ^ w)).counter = s.counter
                ∧ (isrA2 w s level ((s.lastA + d) % 2 ^ w)).putativestateA = 0
                ∧ (isrA1x w s level ((s.lastA + d) % 2 ^ w)).putativestateA = 0)
            ∧ (0 < s.putativestateA →
              (isrA1x w s level ((s.lastA + d) % 2 ^ w)).counter
                  = wrap32 (s.counter + side level)
                ∧ (isrA1x w s level ((s.lastA + d) % 2 ^ w)).counter ≠ s.counter)
            ∧ (¬ 0 < s.putativestateA →
              (isrA1x w s level ((s.lastA + d) % 2 ^ w)).counter = s.counter)
            ∧ (isrA2 w s level ((s.lastA + d) % 2 ^ w)).stateA = 0
            ∧ (isrA2 w s level ((s.lastA + d) % 2 ^ w)).lastA = (s.lastA + d) % 2 ^ w
            ∧ (isrA1x w s level ((s.lastA + d) % 2 ^ w)).stateA = 0
            ∧ (isrA1x w s level ((s.lastA + d) % 2 ^ w)).lastA = (s.lastA + d) % 2 ^ w)
        ∧ ((isrA2 w s level ((s.lastA + d) % 2 ^ w)).counter ≠ s.counter
            ↔ s.holdoff ≤ d ∧ s.putativestateA ≠ 0)
        ∧ ((isrA1x w s level ((s.lastA + d) % 2 ^ w)).counter ≠ s.counter
            ↔ s.holdoff ≤ d ∧ 0 < s.putativestateA))
      ∧ (s.stateB = 0 →
        usub w ((s.lastB + d) % 2 ^ w) s.lastB = d
        ∧ recoverB w s ((s.lastB + d) % 2 ^ w)
            = (if s.holdoff ≤ d then { s with stateB := s.putativestateB } else s)
        ∧ (¬ s.holdoff ≤ d →
            isrB4 w s level ((s.lastB + d) % 2 ^ w)
              = { s with stateA := side level, lastB := (s.lastB + d) % 2 ^ w })
        ∧ (s.holdoff ≤ d →
            isrB4 w s level ((s.lastB + d) % 2 ^ w)
              = isrB4 w { s with stateB := s.putativestateB } level
                  ((s.lastB + d) % 2 ^ w))
        ∧ (s.holdoff ≤ d →
            (s.putativestateB ≠ 0 →
              (isrB4 w s level ((s.lastB + d) % 2 ^ w)).counter
                  = wrap32 (s.counter
                      + (if 0 < s.putativestateB then -side level else side level))
                ∧ (isrB4 w s level ((s.lastB + d) % 2 ^ w)).counter ≠ s.counter
                ∧ (isrB4 w s level ((s.lastB + d) % 2 ^ w)).putativestateB
                  = wrap8 (-s.putativestateB))
            ∧ (s.putativestateB = 0 →
              (isrB4 w s level ((s.lastB + d) % 2 ^ w)).counter = s.counter
                ∧ (isrB4 w s level ((s.lastB + d) % 2 ^ w)).putativestateB = 0)
            ∧ (isrB4 w s level ((s.lastB + d) % 2 ^ w)).stateB = 0
            ∧ (isrB4 w s level ((s.lastB + d) % 2 ^ w)).lastB = (s.lastB + d) % 2 ^ w)
        ∧ ((isrB4 w s level ((s.lastB + d) % 2 ^ w)).counter ≠ s.counter
            ↔ s.holdoff ≤ d ∧ s.putativestateB ≠ 0)) := by
  have uA := usub_add_mod w s.lastA d hd
  have uB := usub_add_mod w s.lastB d hd
  refine ⟨fun h0 => ⟨uA, ?_, fun hlt => ⟨?_, ?_⟩, fun hge => ⟨?_, ?_⟩, fun hge => ?_, ?_, ?_⟩,
    fun h0 => ⟨uB, ?_, fun hlt => ?_, fun hge => ?_, fun hge => ?_, ?_⟩⟩
  · simp [recoverA, h0, hH, uA]
  · exact isrA1x_disarmed w s level _ h0 (by rw [uA]; exact fun h => hlt h.2)
  · exact isrA2_disarmed w s level _ h0 (by rw [uA]; exact fun h => hlt h.2)
  · by_cases hp : s.putativestateA = 0 <;> simp [isrA1x, recoverA, h0, hH, uA, hge, hp]
  · by_cases hp : s.putativestateA = 0 <;> simp [isrA2, recoverA, h0, hH, uA, hge, hp]
  · have hge2 : s.holdoff ≤ usub w ((s.lastA + d) % 2 ^ w) s.lastA := by rw [uA]; exact hge
    obtain ⟨a1, a2⟩ := isrA2_recovering w s level _ h0 hH hge2
    obtain ⟨x1, x2, x3, x4⟩ := isrA1x_recovering w s level _ h0 hH hge2
    exact ⟨fun hp => ⟨(a1 hp).1, (a1 hp).2.1, (a1 hp).2.2, x3 hp⟩,
      fun hp => ⟨(a2 hp).1, (a2 hp).2, x4 hp⟩, x1, x2,
      (isrA2_post w s level _).1, (isrA2_post w s level _).2.1,
      (isrA1x_post w s level _).1, (isrA1x_post w s level _).2.1⟩
  · by_cases hge : s.holdoff ≤ d
    · have hge2 : s.holdoff ≤ usub w ((s.lastA + d) % 2 ^ w) s.lastA := by rw [uA]; exact hge
      obtain ⟨a1, a2⟩ := isrA2_recovering w s level _ h0 hH hge2
      by_cases hp : s.putativestateA = 0
      · simp [hp, (a2 hp).1]
      · simp [hp, hge, (a1 hp).2.1]
    · rw [isrA2_disarmed w s level _ h0 (by rw [uA]; exact fun h => hge h.2)]
      simp [hge]
  · by_cases hge : s.holdoff ≤ d
    · have hge2 : s.holdoff ≤ usub w ((s.lastA + d) % 2 ^ w) s.lastA := by rw [uA]; exact hge
      obtain ⟨x1, x2, -, -⟩ := isrA1x_recovering w s level _ h0 hH hge2
      by_cases hp : 0 < s.putativestateA
      · simp [hp, hge, (x1 hp).2]
      · simp [hp, x2 hp]
    · rw [isrA1x_disarmed w s level _ h0 (by rw [uA]; exact fun h => hge h.2)]
      simp [hge]
  · simp [recoverB, h0, hH, uB]
  · exact isrB4_disarmed w s level _ h0 (by rw [uB]; exact fun h => hlt h.2)
  · by_cases hp : s.putativestateB = 0 <;> simp [isrB4, recoverB, h0, hH, uB, hge, hp]
  · have hge2 : s.holdoff ≤ usub w ((s.lastB + d) % 2 ^ w) s.lastB := by rw [uB]; exact hge
    obtain ⟨b1, b2⟩ := isrB4_recovering w s level _ h0 hH hge2
    exact ⟨b1, b2, (isrB4_post w s level _).1, (isrB4_post w s level _).2.1⟩
  · by_cases hge : s.holdoff ≤ d
    · have hge2 : s.holdoff ≤ usub w ((s.lastB + d) % 2 ^ w) s.lastB := by rw [uB]; exact hge
      obtain ⟨b1, b2⟩ := isrB4_recovering w s level _ h0 hH hge2
      by_cases hp : s.putativestateB = 0
      · simp [hp, (b2 hp).1]
      · simp [hp, hge, (b1 hp).2.1]
    · rw [isrB4_disarmed w s level _ h0 (by rw [uB]; exact fun h => hge h.2)]
      simp [hge]

/-- Witness of C18: a `Four` counts an A-edge 100 microseconds before the
32-bit clock wraps (`counter = 1`, putative value -1); the next A-edge comes
1100 microseconds later, at clock reading 1000: the elapsed time the routine
sees is 1100, and with B high it counts `-sideB`, back to 0. -/
theorem C18_wraparound_safe_witness :
    (1100 : Nat) < 2 ^ 32
      ∧ (run 32 quadruple (Four.ctor zeroInit true true).1 [.A true 4294967196]).holdoff ≠ 0
      ∧ (run 32 quadruple (Four.ctor zeroInit true true).1 [.A true 4294967196]).stateA = 0
      ∧ ((run 32 quadruple (Four.ctor zeroInit true true).1 [.A true 4294967196]).lastA
            + 1100) % 2 ^ 32 = 1000
      ∧ usub 32
          (((run 32 quadruple (Four.ctor zeroInit true true).1 [.A true 4294967196]).lastA
            + 1100) % 2 ^ 32)
          (run 32 quadruple (Four.ctor zeroInit true true).1 [.A true 4294967196]).lastA
        = 1100
      ∧ (isrA2 32 (run 32 quadruple (Four.ctor zeroInit true true).1 [.A true 4294967196])
          true
          (((run 32 quadruple (Four.ctor zeroInit true true).1 [.A true 4294967196]).lastA
            + 1100) % 2 ^ 32)).counter
        ≠ (run 32 quadruple (Four.ctor zeroInit true true).1 [.A true 4294967196]).counter
      ∧ (isrA2 32 (run 32 quadruple (Four.ctor zeroInit true true).1 [.A true 4294967196])
          true 1000).counter = 0 :=
  ⟨by decide, by decide, by decide, by decide,
    ((C18_wraparound_safe 32
      (run 32 quadruple (Four.ctor zeroInit true true).1 [.A true 4294967196]) 1100 true
      (by decide) (by decide)).1 (by decide)).1,
    ((C18_wraparound_safe 32
      (run 32 quadruple (Four.ctor zeroInit true true).1 [.A true 4294967196]) 1100 true
      (by decide) (by decide)).1 (by decide)).2.2.2.2.2.1.2 ⟨by decide, by decide⟩,
    by decide⟩

/-- C19. With `holdoff > 0`, `stateA` nonzero at entry (any `signed char` value
other than 0 and `SCHAR_MIN`, so in particular -1 and +1), `counter` an
`int32_t` value, the same level `v` of B at both edges and `t2 - t1`
(unsigned) at least `holdoff`: `isrA2` at `t1` and `isrA2` again at `t2`, with
nothing in between, move `counter` by `d = +-1` and then by `-d`; `counter`
ends where it started, `stateA` is 0 and `putativestateA` is the `stateA` of
the entry to the first invocation. -/
theorem C19_slow_reversal_cancels (w : Nat) (s : State) (v : Bool) (t1 t2 : Nat)
    (hH : 0 < s.holdoff) (hA : s.stateA ≠ 0) (hlo : -128 < s.stateA) (hhi : s.stateA ≤ 127)
    (hc : InInt32 s.counter) (hel : s.holdoff ≤ usub w t2 t1) :
    ((if 0 < s.stateA then side v else -side v) = 1
        ∨ (if 0 < s.stateA then side v else -side v) = -1)
      ∧ (isrA2 w s v t1).counter
          = wrap32 (s.counter + (if 0 < s.stateA then side v else -side v))
      ∧ (isrA2 w s v t1).counter ≠ s.counter
      ∧ (isrA2 w (isrA2 w s v t1) v t2).counter
          = wrap32 ((isrA2 w s v t1).counter - (if 0 < s.stateA then side v else -side v))
      ∧ (isrA2 w (isrA2 w s v t1) v t2).counter ≠ (isrA2 w s v t1).counter
      ∧ (isrA2 w (isrA2 w s v t1) v t2).counter = s.counter
      ∧ (isrA2 w (isrA2 w s v t1) v t2).stateA = 0
      ∧ (isrA2 w (isrA2 w s v t1) v t2).putativestateA = s.stateA := by
  obtain ⟨c1, c2, a2, p2⟩ := isrA2_twice w s v t1 t2 hH hA hlo hhi hel
  have hd : (if 0 < s.stateA then side v else -side v) = 1
      ∨ (if 0 < s.stateA then side v else -side v) = -1 := by
    cases v <;> split_ifs <;> simp [side]
  obtain ⟨b1, b2, b3⟩ := wrap32_step_back hc _ hd
  rw [sub_eq_add_neg]
  rw [c1] at c2 ⊢
  rw [c2]
  exact ⟨hd, rfl, b2, rfl, b3, b1, a2, p2⟩

/-- Witness of C19: a fresh `Two` with pin B high (`stateA = 1`, `holdoff = 1000`)
sees two A-edges 4900 microseconds apart and no B-edge. -/
theorem C19_slow_reversal_cancels_witness :
    0 < (Two.ctor zeroInit true true).1.holdoff
      ∧ (Two.ctor zeroInit true true).1.stateA = 1
      ∧ (Two.ctor zeroInit true true).1.holdoff ≤ usub 32 5000 100
      ∧ (isrA2 32 (Two.ctor zeroInit true true).1 true 100).counter = 1
      ∧ (isrA2 32 (isrA2 32 (Two.ctor zeroInit true true).1 true 100) true 5000).counter
          = (Two.ctor zeroInit true true).1.counter
      ∧ (isrA2 32 (isrA2 32 (Two.ctor zeroInit true true).1 true 100) true 5000).putativestateA
          = (Two.ctor zeroInit true true).1.stateA :=
  ⟨by decide, by decide, by decide, by decide,
    (C19_slow_reversal_cancels 32 (Two.ctor zeroInit true true).1 true 100 5000
      (by decide) (by decide) (by decide) (by decide) (by decide) (by decide)).2.2.2.2.2.1,
    (C19_slow_reversal_cancels 32 (Two.ctor zeroInit true true).1 true 100 5000
      (by decide) (by decide) (by decide) (by decide) (by decide) (by decide)).2.2.2.2.2.2.2⟩

/-- C20. For every state with `holdoff = 0` and every input, `isrA1x` and `isrA1`
leave the same `counter`, `stateA`, `stateB` and trace of listener calls (and
the same `callback`, `putativestateB`, `lastB`, `holdoff`); they can differ
only in `putativestateA` and `lastA`.  Hence after `One::setHoldoff(0)`, which
attaches `isrA1x` in place of `isrA1`, every edge sequence leaves the same
`counter`, arms and listener calls as it does without that call. -/
theorem C20_isrA1x_refines_isrA1 (w : Nat) (s : State) (level : Bool) (t : Nat)
    (es : List Edge) (h : s.holdoff = 0) :
    ((isrA1x w s level t).counter = (isrA1 s level).counter
      ∧ (isrA1x w s level t).stateA = (isrA1 s level).stateA
      ∧ (isrA1x w s level t).stateB = (isrA1 s level).stateB
      ∧ (isrA1x w s level t).calls = (isrA1 s level).calls
      ∧ AgreeButPutativeA (isrA1x w s level t) (isrA1 s level))
    ∧ (One.setHoldoff (s, standard) 0).2.onA = .isrA1x
    ∧ AgreeButPutativeA
        (run w (One.setHoldoff (s, standard) 0).2 (One.setHoldoff (s, standard) 0).1 es)
        (run w standard s es)
    ∧ (run w (One.setHoldoff (s, standard) 0).2 (One.setHoldoff (s, standard) 0).1 es).counter
        = (run w standard s es).counter
    ∧ (run w (One.setHoldoff (s, standard) 0).2 (One.setHoldoff (s, standard) 0).1 es).calls
        = (run w standard s es).calls := by
  have hrefl : AgreeButPutativeA s s := ⟨rfl, rfl, rfl, rfl, rfl, rfl, rfl, rfl⟩
  have h1 := isrA1x_agree w s s level t h hrefl
  have hset : AgreeButPutativeA (One.setHoldoff (s, standard) 0).1 s :=
    ⟨rfl, rfl, rfl, rfl, rfl, rfl, h.symm, rfl⟩
  have h2 : AgreeButPutativeA
      (run w (One.setHoldoff (s, standard) 0).2 (One.setHoldoff (s, standard) 0).1 es)
      (run w standard s es) :=
    run_agree w es (One.setHoldoff (s, standard) 0).1 s rfl hset
  exact ⟨⟨h1.1, h1.2.1, h1.2.2.1, h1.2.2.2.2.2.2.2, h1⟩, rfl, h2, h2.1, h2.2.2.2.2.2.2.2⟩

/-- Witness of C20: a fresh `One` with a listener, over the four edges B (A high),
A (B high), B (A low), A (B low): with and without `setHoldoff(0)` the counter
ends at 1. -/
theorem C20_isrA1x_refines_isrA1_witness :
    (Base.setCallback (One.ctor zeroInit true true).1 (some 7)).holdoff = 0
      ∧ (run 32 standard (Base.setCallback (One.ctor zeroInit true true).1 (some 7))
          (scenarioEdges 10 20 30 40)).counter = 1
      ∧ (run 32
          (One.setHoldoff (Base.setCallback (One.ctor zeroInit true true).1 (some 7),
            standard) 0).2
          (One.setHoldoff (Base.setCallback (One.ctor zeroInit true true).1 (some 7),
            standard) 0).1
          (scenarioEdges 10 20 30 40)).counter
        = (run 32 standard (Base.setCallback (One.ctor zeroInit true true).1 (some 7))
          (scenarioEdges 10 20 30 40)).counter :=
  ⟨by decide, by decide,
    (C20_isrA1x_refines_isrA1 32 (Base.setCallback (One.ctor zeroInit true true).1 (some 7))
      true 0 (scenarioEdges 10 20 30 40) (by decide)).2.2.2.1⟩

end RobustQuadrature
